import Mathlib

/-! # got: repository initialisation

A shallow embedding of `internal/repository/repo.go`, `internal/commands/init.go`
and `main.go`.

The Go code talks to the operating system through four calls of package `os`
(`Stat`, `Mkdir`, `MkdirAll`, `WriteFile`).  The embedding has two layers:

* `Sys σ` is the interface of those four calls over an arbitrary state `σ`;
  `Initialize`, `Init` and `main` are written against it, statement by
  statement as in the source.
* `posix` is one instance: a directory tree with permission bits, a umask and
  inode / data budgets, with `MkdirAll` and `WriteFile` following the Go
  standard library.
-/

namespace Got

/-! ## Go errors -/

/-- The `syscall.Errno` values the model produces. -/
inductive Errno where
  | ENOENT
  | EACCES
  | EEXIST
  | ENOTDIR
  | EISDIR
  | ENOSPC
  deriving DecidableEq, Repr

/-- Text of `syscall.Errno.Error()`. -/
def Errno.Error : Errno → String
  | .ENOENT => "no such file or directory"
  | .EACCES => "permission denied"
  | .EEXIST => "file exists"
  | .ENOTDIR => "not a directory"
  | .EISDIR => "is a directory"
  | .ENOSPC => "no space left on device"

/-- Go values of type `error`: `*fs.PathError`, the value of `fmt.Errorf`
without `%w`, and the value of `fmt.Errorf` with one `%w`. -/
inductive GoError where
  | pathError (op : String) (path : String) (err : Errno)
  | errorString (s : String)
  | wrapError (msg : String) (err : GoError)
  deriving DecidableEq, Repr

/-- The method `Error()`. -/
def GoError.Error : GoError → String
  | .pathError op path err => op ++ " " ++ path ++ ": " ++ err.Error
  | .errorString s => s
  | .wrapError msg _ => msg

/-- The method `Unwrap()` as seen by `errors.Unwrap`. -/
def GoError.Unwrap : GoError → Option GoError
  | .pathError _ _ _ => none
  | .errorString _ => none
  | .wrapError _ err => some err

/-- The call `fmt.Errorf(format)` with a format free of verbs. -/
def Errorf (format : String) : GoError :=
  .errorString format

/-- The call `fmt.Errorf(pfx + "%w", err)`. -/
def ErrorfW (pfx : String) (err : GoError) : GoError :=
  .wrapError (pfx ++ err.Error) err

/-! ## The operating-system interface -/

/-- What `Initialize` can learn from a successful `os.Stat`. -/
structure FileInfo where
  isDir : Bool
  mode : Nat
  size : Nat
  deriving DecidableEq, Repr

/-- The four `os` calls used by the repository code, as state transformers. -/
structure Sys (σ : Type) where
  Stat : String → σ → Except GoError FileInfo × σ
  Mkdir : String → Nat → σ → Option GoError × σ
  MkdirAll : String → Nat → σ → Option GoError × σ
  WriteFile : String → String → Nat → σ → Option GoError × σ

/-- One call made through `Sys`. -/
inductive Call where
  | stat (name : String)
  | mkdir (name : String) (perm : Nat)
  | mkdirAll (name : String) (perm : Nat)
  | writeFile (name : String) (data : String) (perm : Nat)
  deriving DecidableEq, Repr

/-- The same system, with every call appended to a log kept beside the state. -/
def traced {σ : Type} (os : Sys σ) : Sys (List Call × σ) where
  Stat name s := ((os.Stat name s.2).1, (s.1 ++ [Call.stat name], (os.Stat name s.2).2))
  Mkdir name perm s :=
    ((os.Mkdir name perm s.2).1, (s.1 ++ [Call.mkdir name perm], (os.Mkdir name perm s.2).2))
  MkdirAll name perm s :=
    ((os.MkdirAll name perm s.2).1,
      (s.1 ++ [Call.mkdirAll name perm], (os.MkdirAll name perm s.2).2))
  WriteFile name data perm s :=
    ((os.WriteFile name data perm s.2).1,
      (s.1 ++ [Call.writeFile name data perm], (os.WriteFile name data perm s.2).2))

/-! ## `internal/repository/repo.go` -/

def gotDir : String := ".got"
def objectsDir : String := "objects"
def refsDir : String := "refs"
def headsDir : String := "heads"
def headFile : String := "HEAD"
def indexFile : String := "index"
def mainBranch : String := "refs/heads/main"

/-- rwxr-xr-x -/
def dirPerm : Nat := 0o755
/-- rw-r--r-- -/
def filePerm : Nat := 0o644

/-- The function `filepath.Join` on elements that are single clean names:
empty elements are dropped and the rest joined by the separator. -/
def filepathJoin (elem : List String) : String :=
  "/".intercalate (elem.filter (fun e => e ≠ ""))

/-- The function `Initialize` of package `repository`. -/
def Initialize {σ : Type} (os : Sys σ) (s : σ) : Option GoError × σ :=
  match os.Stat gotDir s with
  | (.ok _, s) => (some (Errorf "repository already initialized"), s)
  | (.error _, s) =>
    match os.Mkdir gotDir dirPerm s with
    | (some err, s) => (some (ErrorfW "failed to create .got directory: " err), s)
    | (none, s) =>
      let objectsPath := filepathJoin [gotDir, objectsDir]
      match os.Mkdir objectsPath dirPerm s with
      | (some err, s) => (some (ErrorfW "failed to create objects directory: " err), s)
      | (none, s) =>
        let headsPath := filepathJoin [gotDir, refsDir, headsDir]
        match os.MkdirAll headsPath dirPerm s with
        | (some err, s) => (some (ErrorfW "failed to create refs/heads directory: " err), s)
        | (none, s) =>
          let headPath := filepathJoin [gotDir, headFile]
          let headContent := "ref: " ++ mainBranch
          match os.WriteFile headPath headContent filePerm s with
          | (some err, s) => (some (ErrorfW "failed to create HEAD file: " err), s)
          | (none, s) =>
            let indexPath := filepathJoin [gotDir, indexFile]
            match os.WriteFile indexPath "" filePerm s with
            | (some err, s) => (some (ErrorfW "failed to create index file: " err), s)
            | (none, s) => (none, s)

/-! ## `internal/commands/init.go` and `main.go` -/

/-- The two output streams of the process. -/
inductive Stream where
  | stdout
  | stderr
  deriving DecidableEq, Repr

/-- One write to an output stream; a run produces them in order. -/
abbrev Output := Stream × String

/-- The call `fmt.Println(a)` with one string operand. -/
def Println (a : String) : List Output :=
  [(Stream.stdout, a ++ "\n")]

/-- The function `Init` of package `commands`. -/
def Init {σ : Type} (os : Sys σ) (s : σ) : Option GoError × List Output × σ :=
  match Initialize os s with
  | (some err, s) => (some err, [], s)
  | (none, s) => (none, Println "Initialized empty got repository", s)

/-- The function `printUsage` of package `main`. -/
def printUsage : List Output :=
  Println "got - A simple version control system" ++
  Println "\nUsage:" ++
  Println "  got <command> [arguments]" ++
  Println "\nAvailable commands:" ++
  Println "  init      Initialize a new repository"

/-- What a run of the process leaves behind: its writes, its exit status and
the state of the system. -/
structure Run (σ : Type) where
  out : List Output
  exitCode : Nat
  sys : σ

/-- The function `main`; `args` is `os.Args`, program name included.
`os.Exit(1)` ends the run where it is called; returning from `main` exits
with status 0. -/
def main {σ : Type} (os : Sys σ) (args : List String) (s : σ) : Run σ :=
  if args.length < 2 then ⟨printUsage, 1, s⟩
  else
    let command := args.getD 1 ""
    if command = "init" then
      match Init os s with
      | (some err, out, s) => ⟨out ++ [(Stream.stderr, "Error: " ++ err.Error ++ "\n")], 1, s⟩
      | (none, out, s) => ⟨out, 0, s⟩
    else
      ⟨[(Stream.stderr, "Unknown command: " ++ command ++ "\n")] ++ printUsage, 1, s⟩

/-! ## A POSIX instance of the interface

The working directory is a tree of directories and regular files carrying
their permission bits.  The calling process is the unprivileged owner of every
node, so access is decided by the owner bits.  Creating a node takes one inode
from `freeInodes`; file data is charged to `freeBytes`.  Paths are relative to
the working directory.  Symbolic links, special files, absolute paths and the
component `..` are outside this model. -/

/-- A node of the tree under the working directory. -/
inductive Node where
  | file (mode : Nat) (data : String)
  | dir (mode : Nat) (entries : List (String × Node))

/-- The state the `os` calls act on. -/
structure FS where
  cwd : Node
  umask : Nat
  freeInodes : Nat
  freeBytes : Nat

/-- The owner may read a file, or list a directory, of this mode. -/
def mayRead (mode : Nat) : Bool := mode &&& 0o400 ≠ 0

/-- The owner may create and remove entries in a directory of this mode, or
write to a file of this mode. -/
def mayWrite (mode : Nat) : Bool := mode &&& 0o200 ≠ 0

/-- The owner may look names up in a directory of this mode. -/
def maySearch (mode : Nat) : Bool := mode &&& 0o100 ≠ 0

/-- Permission bits of a node created with `perm` under `umask`. -/
def applyUmask (perm umask : Nat) : Nat :=
  perm &&& (0o777 ^^^ (umask &&& 0o777))

/-- One step of splitting a path at its separators, from the right. -/
def splitStep (c : Char) (acc : List (List Char)) : List (List Char) :=
  if c = '/' then [] :: acc
  else
    match acc with
    | [] => [[c]]
    | w :: ws => (c :: w) :: ws

/-- The components of a path name; empty components and `.` name the
directory they stand in and are dropped. -/
def splitPath (name : String) : List String :=
  ((name.toList.foldr splitStep [[]]).map String.mk).filter (fun c => c ≠ "" ∧ c ≠ ".")

/-- The path name made of the given components. -/
def pathOf (comps : List String) : String :=
  if comps = [] then "." else "/".intercalate comps

/-- What `stat(2)` reports of a node. -/
def Node.info : Node → FileInfo
  | .file mode data => ⟨false, mode, data.utf8ByteSize⟩
  | .dir mode _ => ⟨true, mode, 0⟩

/-- Path resolution: every directory on the way must be searchable. -/
def walk : Node → List String → Except Errno Node
  | n, [] => .ok n
  | .file _ _, _ :: _ => .error .ENOTDIR
  | .dir mode entries, c :: rest =>
    if maySearch mode then
      match entries.lookup c with
      | some child => walk child rest
      | none => .error .ENOENT
    else .error .EACCES

/-- Replace the entries called `c`. -/
def replaceEntry (entries : List (String × Node)) (c : String) (n : Node) :
    List (String × Node) :=
  entries.map (fun e => if e.1 = c then (c, n) else e)

/-- Resolve `path`, apply `g` to the node found and rebuild the tree above it. -/
def modifyAt : Node → List String → (Node → Except Errno Node) → Except Errno Node
  | n, [], g => g n
  | .file _ _, _ :: _, _ => .error .ENOTDIR
  | .dir mode entries, c :: rest, g =>
    if maySearch mode then
      match entries.lookup c with
      | some child =>
        match modifyAt child rest g with
        | .ok child' => .ok (.dir mode (replaceEntry entries c child'))
        | .error e => .error e
      | none => .error .ENOENT
    else .error .EACCES

/-- Add the new node `new` under the name `c` to a directory, as `mkdir(2)`
and `open(2)` with `O_CREAT` do for an absent name. -/
def createIn (c : String) (new : Node) : Node → Except Errno Node
  | .file _ _ => .error .ENOTDIR
  | .dir mode entries =>
    if maySearch mode then
      match entries.lookup c with
      | some _ => .error .EEXIST
      | none =>
        if mayWrite mode then .ok (.dir mode (entries ++ [(c, new)]))
        else .error .EACCES
    else .error .EACCES

/-- Truncate the regular file at a node, as `open(2)` with
`O_WRONLY|O_TRUNC` does for an existing name. -/
def truncate : Node → Except Errno Node
  | .dir _ _ => .error .EISDIR
  | .file mode _ => if mayWrite mode then .ok (.file mode "") else .error .EACCES

/-- Store `data` in the regular file at a node. -/
def store (data : String) : Node → Except Errno Node
  | .dir _ _ => .error .EISDIR
  | .file mode _ => .ok (.file mode data)

namespace Posix

/-- The call `os.Stat` (and `os.Lstat`: there are no symbolic links). -/
def Stat (name : String) (s : FS) : Except GoError FileInfo × FS :=
  if name = "" then (.error (.pathError "stat" name .ENOENT), s)
  else
    match walk s.cwd (splitPath name) with
    | .ok n => (.ok n.info, s)
    | .error e => (.error (.pathError "stat" name e), s)

/-- The call `os.Mkdir`. -/
def Mkdir (name : String) (perm : Nat) (s : FS) : Option GoError × FS :=
  if name = "" then (some (.pathError "mkdir" name .ENOENT), s)
  else
    match (splitPath name).getLast? with
    | none => (some (.pathError "mkdir" name .EEXIST), s)
    | some c =>
      match modifyAt s.cwd (splitPath name).dropLast
          (createIn c (.dir (applyUmask perm s.umask) [])) with
      | .error e => (some (.pathError "mkdir" name e), s)
      | .ok cwd =>
        if s.freeInodes = 0 then (some (.pathError "mkdir" name .ENOSPC), s)
        else (none, { s with cwd := cwd, freeInodes := s.freeInodes - 1 })

/-- The body of `os.MkdirAll` for the path `path`; `parent` creates the parent
directory when the path has one. -/
def mkdirAllBody (path : String) (perm : Nat) (parent : FS → Option GoError × FS)
    (s : FS) : Option GoError × FS :=
  match Stat path s with
  | (.ok dir, s) =>
    if dir.isDir then (none, s)
    else (some (.pathError "mkdir" path .ENOTDIR), s)
  | (.error _, s) =>
    match parent s with
    | (some err, s) => (some err, s)
    | (none, s) =>
      match Mkdir path perm s with
      | (some err, s) =>
        match Stat path s with
        | (.ok dir, s) => if dir.isDir then (none, s) else (some err, s)
        | (.error _, s) => (some err, s)
      | (none, s) => (none, s)

/-- Recursion of `os.MkdirAll` over the components of the path, last first:
a path of one component has no parent to create. -/
def mkdirAllRev (perm : Nat) : List String → FS → Option GoError × FS
  | [], s => mkdirAllBody (pathOf []) perm (fun s => (none, s)) s
  | [c], s => mkdirAllBody (pathOf [c]) perm (fun s => (none, s)) s
  | c :: d :: rest, s =>
    mkdirAllBody (pathOf (c :: d :: rest).reverse) perm (mkdirAllRev perm (d :: rest)) s

/-- The call `os.MkdirAll`.  The path and its ancestors are named by their
components joined with the separator, which for a clean relative path is the
path itself. -/
def MkdirAll (name : String) (perm : Nat) (s : FS) : Option GoError × FS :=
  mkdirAllRev perm (splitPath name).reverse s

/-- The call `os.OpenFile(name, O_WRONLY|O_CREATE|O_TRUNC, perm)`; the open
file is named by its path afterwards. -/
def openCreateTrunc (name : String) (perm : Nat) (s : FS) : Option GoError × FS :=
  if name = "" then (some (.pathError "open" name .ENOENT), s)
  else
    match walk s.cwd (splitPath name) with
    | .ok old =>
      match modifyAt s.cwd (splitPath name) truncate with
      | .error e => (some (.pathError "open" name e), s)
      | .ok cwd =>
        (none, { s with cwd := cwd, freeBytes := s.freeBytes + old.info.size })
    | .error .ENOENT =>
      match (splitPath name).getLast? with
      | none => (some (.pathError "open" name .ENOENT), s)
      | some c =>
        match modifyAt s.cwd (splitPath name).dropLast
            (createIn c (.file (applyUmask perm s.umask) "")) with
        | .error e => (some (.pathError "open" name e), s)
        | .ok cwd =>
          if s.freeInodes = 0 then (some (.pathError "open" name .ENOSPC), s)
          else (none, { s with cwd := cwd, freeInodes := s.freeInodes - 1 })
    | .error e => (some (.pathError "open" name e), s)

/-- The call `f.Write(data)` on the file just opened: a write of no bytes has
no effect; otherwise the data is stored when the space is there, and nothing
is stored when it is not. -/
def write (name : String) (data : String) (s : FS) : Option GoError × FS :=
  if data = "" then (none, s)
  else if data.utf8ByteSize ≤ s.freeBytes then
    match modifyAt s.cwd (splitPath name) (store data) with
    | .error e => (some (.pathError "write" name e), s)
    | .ok cwd => (none, { s with cwd := cwd, freeBytes := s.freeBytes - data.utf8ByteSize })
  else (some (.pathError "write" name .ENOSPC), s)

/-- The call `os.WriteFile`: open, write, close. -/
def WriteFile (name : String) (data : String) (perm : Nat) (s : FS) : Option GoError × FS :=
  match openCreateTrunc name perm s with
  | (some err, s) => (some err, s)
  | (none, s) => write name data s

/-- The call `os.ReadFile`, which the repository's tests read `HEAD` and
`index` back with: the path is resolved and the file opened for reading, for
which the caller needs read permission on it; a directory opens but cannot be
read. -/
def ReadFile (name : String) (s : FS) : Except GoError String :=
  if name = "" then .error (.pathError "open" name .ENOENT)
  else
    match walk s.cwd (splitPath name) with
    | .error e => .error (.pathError "open" name e)
    | .ok (.file mode data) =>
      if mayRead mode then .ok data else .error (.pathError "open" name .EACCES)
    | .ok (.dir mode _) =>
      if mayRead mode then .error (.pathError "read" name .EISDIR)
      else .error (.pathError "open" name .EACCES)

end Posix

/-- The POSIX instance. -/
def posix : Sys FS where
  Stat := Posix.Stat
  Mkdir := Posix.Mkdir
  MkdirAll := Posix.MkdirAll
  WriteFile := Posix.WriteFile

/-! ## Observations of a state -/

/-- The node a path names, permissions of the observer aside. -/
def nodeAt : Node → List String → Option Node
  | n, [] => some n
  | .file _ _, _ :: _ => none
  | .dir _ entries, c :: rest =>
    match entries.lookup c with
    | some child => nodeAt child rest
    | none => none

/-- The path exists in the state. -/
def FS.exists (s : FS) (name : String) : Bool :=
  (nodeAt s.cwd (splitPath name)).isSome

/-- The path exists and is a directory. -/
def FS.isDir (s : FS) (name : String) : Bool :=
  match nodeAt s.cwd (splitPath name) with
  | some (.dir _ _) => true
  | _ => false

/-- The path exists and is a regular file. -/
def FS.isFile (s : FS) (name : String) : Bool :=
  match nodeAt s.cwd (splitPath name) with
  | some (.file _ _) => true
  | _ => false

/-- The names in the directory at the path. -/
def FS.readDir (s : FS) (name : String) : Option (List String) :=
  match nodeAt s.cwd (splitPath name) with
  | some (.dir _ entries) => some (entries.map Prod.fst)
  | _ => none

/-- The permission bits of the node at the path. -/
def FS.modeOf (s : FS) (name : String) : Option Nat :=
  (nodeAt s.cwd (splitPath name)).map (fun n => n.info.mode)

/-! ## Vocabulary of the statements -/

/-- Perform one logged call; a failed `Stat` counts as a failure. -/
def Sys.exec {σ : Type} (os : Sys σ) (c : Call) (s : σ) : Option GoError × σ :=
  match c with
  | .stat name =>
    match os.Stat name s with
    | (.ok _, s) => (none, s)
    | (.error e, s) => (some e, s)
  | .mkdir name perm => os.Mkdir name perm s
  | .mkdirAll name perm => os.MkdirAll name perm s
  | .writeFile name data perm => os.WriteFile name data perm s

/-- The five creation steps of `Initialize`, in source order. -/
def creationCalls : List Call :=
  [ .mkdir gotDir dirPerm,
    .mkdir (filepathJoin [gotDir, objectsDir]) dirPerm,
    .mkdirAll (filepathJoin [gotDir, refsDir, headsDir]) dirPerm,
    .writeFile (filepathJoin [gotDir, headFile]) ("ref: " ++ mainBranch) filePerm,
    .writeFile (filepathJoin [gotDir, indexFile]) "" filePerm ]

/-- The format prefixes of the five creation steps, in source order. -/
def stepMessages : List String :=
  [ "failed to create .got directory: ",
    "failed to create objects directory: ",
    "failed to create refs/heads directory: ",
    "failed to create HEAD file: ",
    "failed to create index file: " ]

/-- The error of the existence check. -/
def alreadyInitialized : GoError :=
  Errorf "repository already initialized"

/-- The state after performing the calls one after the other. -/
def afterCalls {σ : Type} (os : Sys σ) : List Call → σ → σ
  | [], s => s
  | c :: cs, s => afterCalls os cs (os.exec c s).2

/-- Every call of the list succeeds when they are performed in order. -/
def callsSucceed {σ : Type} (os : Sys σ) : List Call → σ → Bool
  | [], _ => true
  | c :: cs, s => (os.exec c s).1.isNone && callsSucceed os cs (os.exec c s).2

/-- Perform labelled calls in order and stop at the first that fails, wrapping
its error with the label. -/
def runSteps {σ : Type} (os : Sys σ) : List (String × Call) → σ → Option GoError × σ
  | [], s => (none, s)
  | (pfx, c) :: rest, s =>
    match os.exec c s with
    | (some err, s) => (some (ErrorfW pfx err), s)
    | (none, s) => runSteps os rest s

/-- The text of the usage message. -/
def usageText : String :=
  "got - A simple version control system\n\nUsage:\n  got <command> [arguments]\n\n" ++
  "Available commands:\n  init      Initialize a new repository\n"

/-- Everything written to one stream, in order. -/
def written (st : Stream) (out : List Output) : String :=
  String.join ((out.filter (fun o => o.1 = st)).map Prod.snd)

/-- `Initialize` called `n` times in a row: the results, and the last state. -/
def repeatInitialize {σ : Type} (os : Sys σ) : Nat → σ → List (Option GoError) × σ
  | 0, s => ([], s)
  | n + 1, s =>
    ((Initialize os s).1 :: (repeatInitialize os n (Initialize os s).2).1,
      (repeatInitialize os n (Initialize os s).2).2)

/-- A state whose working directory holds the entries `es` and, last, the
node `G` under the name `.got`. -/
def underGot (m : Nat) (es : List (String × Node)) (u fi fb : Nat) (G : Node) : FS :=
  ⟨.dir m (es ++ [(".got", G)]), u, fi, fb⟩

/-- The tree a successful `Initialize` leaves at `.got` under the umask `u`. -/
def skeleton (u : Nat) : Node :=
  .dir (applyUmask dirPerm u)
    [ ("objects", .dir (applyUmask dirPerm u) []),
      ("refs", .dir (applyUmask dirPerm u) [("heads", .dir (applyUmask dirPerm u) [])]),
      ("HEAD", .file (applyUmask filePerm u) "ref: refs/heads/main"),
      ("index", .file (applyUmask filePerm u) "") ]

/-- Every node of `a` is still there in `b`, with the same type. -/
def Node.keeps (a b : Node) : Prop :=
  ∀ p x, nodeAt a p = some x → ∃ y, nodeAt b p = some y ∧ y.info.isDir = x.info.isDir

/-- The caller may search the working directory. -/
def FS.cwdSearchable (s : FS) : Bool :=
  match s.cwd with
  | .dir m _ => maySearch m
  | .file _ _ => false

/-- The POSIX system with a competitor: right after `Stat` has looked at a
path, another process creates a directory there.  This is the window between
the existence check and the creation of `.got`. -/
def raced : Sys FS where
  Stat name s := ((Posix.Stat name s).1, (Posix.Mkdir name dirPerm s).2)
  Mkdir := Posix.Mkdir
  MkdirAll := Posix.MkdirAll
  WriteFile := Posix.WriteFile

/-- An empty working directory, mode 0755, umask 022, with room to spare. -/
def freshDir : FS := ⟨.dir 0o755 [], 0o022, 100, 4096⟩

/-- An empty working directory the caller may not write to (mode 0555). -/
def readOnlyDir : FS := ⟨.dir 0o555 [], 0o022, 100, 4096⟩

/-- A complete repository in a working directory the caller may not search
(mode 0644, as after `chmod a-x .`). -/
def lockedRepository : FS := ⟨.dir 0o644 [(".got", skeleton 0o022)], 0o022, 100, 4096⟩

/-- An empty working directory of a caller whose umask hides the owner read
bit (umask 0400). -/
def ownerReadMasked : FS := ⟨.dir 0o755 [], 0o400, 100, 4096⟩

/-- An empty working directory on a file system with three free inodes. -/
def threeInodes : FS := ⟨.dir 0o755 [], 0o022, 3, 4096⟩

/-! ## `Initialize` as a run of labelled steps -/

theorem exec_traced {σ : Type} (os : Sys σ) (c : Call) (l : List Call) (s : σ) :
    (traced os).exec c (l, s) = ((os.exec c s).1, (l ++ [c], (os.exec c s).2)) := by
  cases c with
  | stat name =>
    simp only [Sys.exec, traced]
    rcases h : os.Stat name s with ⟨r | r, t⟩ <;> simp
  | mkdir name perm => simp [Sys.exec, traced]
  | mkdirAll name perm => simp [Sys.exec, traced]
  | writeFile name data perm => simp [Sys.exec, traced]

theorem Initialize_eq_runSteps {σ : Type} (os : Sys σ) (s : σ) :
    Initialize os s =
      match os.Stat gotDir s with
      | (.ok _, s) => (some alreadyInitialized, s)
      | (.error _, s) => runSteps os (stepMessages.zip creationCalls) s := by
  unfold Initialize
  simp only [stepMessages, creationCalls, List.zip_cons_cons, List.zip_nil_right, runSteps,
    Sys.exec, alreadyInitialized]

theorem runSteps_fails {σ : Type} (os : Sys σ) (e : GoError) (sk : σ) :
    ∀ (steps : List (String × Call)) (k : Nat) (s : σ), k < steps.length →
      callsSucceed os ((steps.map Prod.snd).take k) s = true →
      os.exec ((steps.map Prod.snd).getD k (.stat ""))
        (afterCalls os ((steps.map Prod.snd).take k) s) = (some e, sk) →
      runSteps os steps s = (some (ErrorfW ((steps.map Prod.fst).getD k "") e), sk) := by
  intro steps
  induction steps with
  | nil => intro k s hk; simp at hk
  | cons st rest ih =>
    intro k s hk hprev hfail
    obtain ⟨pfx, c⟩ := st
    cases k with
    | zero =>
      simp only [List.map_cons, List.getD_cons_zero, List.take_zero, afterCalls] at hfail
      simp [runSteps, hfail]
    | succ k =>
      simp only [List.map_cons, List.take_succ_cons, callsSucceed, Bool.and_eq_true,
        Option.isNone_iff_eq_none] at hprev
      simp only [List.map_cons, List.getD_cons_succ, List.take_succ_cons, afterCalls] at hfail
      have hk2 : k < rest.length := by simpa using hk
      rcases hx : os.exec c s with ⟨r, t⟩
      rw [hx] at hprev hfail
      simp only at hprev hfail
      obtain ⟨hr, hprev⟩ := hprev
      subst hr
      simp only [runSteps, hx, List.map_cons, List.getD_cons_succ]
      exact ih k t hk2 hprev hfail

theorem runSteps_traced {σ : Type} (os : Sys σ) :
    ∀ (steps : List (String × Call)) (l : List Call) (s : σ),
      (runSteps (traced os) steps (l, s)).1 = (runSteps os steps s).1 ∧
      (runSteps (traced os) steps (l, s)).2.2 = (runSteps os steps s).2 := by
  intro steps
  induction steps with
  | nil => intro l s; simp [runSteps]
  | cons st rest ih =>
    intro l s
    obtain ⟨pfx, c⟩ := st
    simp only [runSteps, exec_traced]
    rcases hx : os.exec c s with ⟨_ | e, t⟩
    · simpa using ih (l ++ [c]) t
    · simp

theorem Initialize_traced {σ : Type} (os : Sys σ) (l : List Call) (s : σ) :
    (Initialize (traced os) (l, s)).1 = (Initialize os s).1 ∧
    (Initialize (traced os) (l, s)).2.2 = (Initialize os s).2 := by
  rw [Initialize_eq_runSteps, Initialize_eq_runSteps]
  simp only [traced]
  rcases hx : os.Stat gotDir s with ⟨r | r, t⟩
  · simpa using runSteps_traced os _ (l ++ [Call.stat gotDir]) t
  · simp

theorem runSteps_fails_log {σ : Type} (os : Sys σ) (e : GoError) (sk : σ) :
    ∀ (steps : List (String × Call)) (k : Nat) (l : List Call) (s : σ), k < steps.length →
      callsSucceed os ((steps.map Prod.snd).take k) s = true →
      os.exec ((steps.map Prod.snd).getD k (.stat ""))
        (afterCalls os ((steps.map Prod.snd).take k) s) = (some e, sk) →
      (runSteps (traced os) steps (l, s)).2.1 = l ++ (steps.map Prod.snd).take (k + 1) := by
  intro steps
  induction steps with
  | nil => intro k l s hk; simp at hk
  | cons st rest ih =>
    intro k l s hk hprev hfail
    obtain ⟨pfx, c⟩ := st
    cases k with
    | zero =>
      simp only [List.map_cons, List.getD_cons_zero, List.take_zero, afterCalls] at hfail
      simp [runSteps, exec_traced, hfail]
    | succ k =>
      simp only [List.map_cons, List.take_succ_cons, callsSucceed, Bool.and_eq_true,
        Option.isNone_iff_eq_none] at hprev
      simp only [List.map_cons, List.getD_cons_succ, List.take_succ_cons, afterCalls] at hfail
      have hk2 : k < rest.length := by simpa using hk
      rcases hx : os.exec c s with ⟨r, t⟩
      rw [hx] at hprev hfail
      simp only at hprev hfail
      obtain ⟨hr, hprev⟩ := hprev
      subst hr
      simp only [runSteps, exec_traced, hx, List.map_cons, List.take_succ_cons]
      rw [ih k (l ++ [c]) t hk2 hprev hfail]
      simp

theorem creation_steps_length : (stepMessages.zip creationCalls).length = 5 := by decide
theorem creation_steps_calls : (stepMessages.zip creationCalls).map Prod.snd = creationCalls := by
  decide
theorem creation_steps_labels : (stepMessages.zip creationCalls).map Prod.fst = stepMessages := by
  decide

/-! ## Evaluation of the POSIX instance -/

theorem lookup_append_new (es : List (String × Node)) (c : String) (n : Node)
    (h : es.lookup c = none) : (es ++ [(c, n)]).lookup c = some n := by
  induction es with
  | nil => simp [List.lookup]
  | cons hd tl ih =>
    obtain ⟨a, b⟩ := hd
    simp only [List.cons_append, List.lookup_cons] at h ⊢
    split at h
    · cases h
    · rename_i hne
      simp [hne, ih h]

theorem replaceEntry_append_new (es : List (String × Node)) (c : String) (n n' : Node)
    (h : es.lookup c = none) : replaceEntry (es ++ [(c, n)]) c n' = es ++ [(c, n')] := by
  induction es with
  | nil => simp [replaceEntry]
  | cons hd tl ih =>
    obtain ⟨a, b⟩ := hd
    simp only [List.lookup_cons] at h
    split at h
    · cases h
    · rename_i hne
      have hne2 : ¬ a = c := by
        intro hac; subst hac; simp at hne
      have := ih h
      simp only [replaceEntry, List.cons_append, List.map_cons, hne2, if_false] at this ⊢
      rw [this]

/-- Resolution below a freshly added entry looks at that entry only. -/
theorem walk_under (m : Nat) (es : List (String × Node)) (c : String) (G : Node)
    (rest : List String) (hl : es.lookup c = none) (hs : maySearch m = true) :
    walk (.dir m (es ++ [(c, G)])) (c :: rest) = walk G rest := by
  simp [walk, hs, lookup_append_new es c G hl]

theorem modifyAt_under (m : Nat) (es : List (String × Node)) (c : String) (G : Node)
    (rest : List String) (g : Node → Except Errno Node)
    (hl : es.lookup c = none) (hs : maySearch m = true) :
    modifyAt (.dir m (es ++ [(c, G)])) (c :: rest) g =
      match modifyAt G rest g with
      | .ok G' => .ok (.dir m (es ++ [(c, G')]))
      | .error e => .error e := by
  cases h : modifyAt G rest g <;>
    simp [modifyAt, hs, lookup_append_new es c G hl, h, replaceEntry_append_new es c G _ hl]


theorem headContent_size : ("ref: refs/heads/main" : String).utf8ByteSize = 20 := by decide
theorem headContent_ne : ("ref: refs/heads/main" : String) ≠ "" := by decide
theorem headContent_eq : ("ref: " ++ mainBranch) = "ref: refs/heads/main" := by decide
theorem gotDir_eq : gotDir = ".got" := rfl
theorem path_objects : filepathJoin [gotDir, objectsDir] = ".got/objects" := by decide
theorem path_heads : filepathJoin [gotDir, refsDir, headsDir] = ".got/refs/heads" := by decide
theorem path_head : filepathJoin [gotDir, headFile] = ".got/HEAD" := by decide
theorem path_index : filepathJoin [gotDir, indexFile] = ".got/index" := by decide
theorem sp_got : splitPath ".got" = [".got"] := by decide
theorem sp_objects : splitPath ".got/objects" = [".got", "objects"] := by decide
theorem sp_refs : splitPath ".got/refs" = [".got", "refs"] := by decide
theorem sp_heads : splitPath ".got/refs/heads" = [".got", "refs", "heads"] := by decide
theorem sp_head : splitPath ".got/HEAD" = [".got", "HEAD"] := by decide
theorem sp_index : splitPath ".got/index" = [".got", "index"] := by decide
theorem ne_got : (".got" : String) ≠ "" := by decide
theorem ne_objects : (".got/objects" : String) ≠ "" := by decide
theorem ne_refs : (".got/refs" : String) ≠ "" := by decide
theorem ne_heads : (".got/refs/heads" : String) ≠ "" := by decide
theorem ne_head : (".got/HEAD" : String) ≠ "" := by decide
theorem ne_index : (".got/index" : String) ≠ "" := by decide

theorem Stat_got_eval (m u fi fb : Nat) (es : List (String × Node)) :
    Posix.Stat ".got" ⟨.dir m es, u, fi, fb⟩ =
      if maySearch m = true then
        match es.lookup ".got" with
        | some n => (.ok n.info, ⟨.dir m es, u, fi, fb⟩)
        | none => (.error (.pathError "stat" ".got" .ENOENT), ⟨.dir m es, u, fi, fb⟩)
      else (.error (.pathError "stat" ".got" .EACCES), ⟨.dir m es, u, fi, fb⟩) := by
  simp only [Posix.Stat, ne_got, if_false, sp_got]
  simp only [walk]
  by_cases h1 : maySearch m = true
  · cases hl : es.lookup ".got" <;> simp [h1, walk]
  · simp [h1]

theorem Mkdir_got_eval (m u fi fb : Nat) (es : List (String × Node)) :
    Posix.Mkdir ".got" dirPerm ⟨.dir m es, u, fi, fb⟩ =
      if maySearch m = true then
        match es.lookup ".got" with
        | some _ => (some (.pathError "mkdir" ".got" .EEXIST), ⟨.dir m es, u, fi, fb⟩)
        | none =>
          if mayWrite m = true then
            if fi = 0 then (some (.pathError "mkdir" ".got" .ENOSPC), ⟨.dir m es, u, fi, fb⟩)
            else (none, underGot m es u (fi - 1) fb (.dir (applyUmask dirPerm u) []))
          else (some (.pathError "mkdir" ".got" .EACCES), ⟨.dir m es, u, fi, fb⟩)
      else (some (.pathError "mkdir" ".got" .EACCES), ⟨.dir m es, u, fi, fb⟩) := by
  simp only [Posix.Mkdir, ne_got, if_false, sp_got]
  simp only [List.getLast?, List.dropLast, List.getLast, modifyAt, createIn, underGot]
  by_cases h1 : maySearch m = true
  · cases hl : es.lookup ".got"
    · by_cases h3 : mayWrite m = true <;> simp [h1, h3]
    · simp [h1]
  · simp [h1]

theorem Mkdir_objects_eval (m u fi fb dm : Nat) (es : List (String × Node))
    (hl : es.lookup ".got" = none) (hs : maySearch m = true) :
    Posix.Mkdir ".got/objects" dirPerm (underGot m es u fi fb (.dir dm [])) =
      if maySearch dm = true ∧ mayWrite dm = true then
        if fi = 0 then
          (some (.pathError "mkdir" ".got/objects" .ENOSPC), underGot m es u fi fb (.dir dm []))
        else
          (none, underGot m es u (fi - 1) fb (.dir dm [("objects", .dir (applyUmask dirPerm u) [])]))
      else (some (.pathError "mkdir" ".got/objects" .EACCES), underGot m es u fi fb (.dir dm [])) := by
  simp only [Posix.Mkdir, ne_objects, if_false, sp_objects, underGot]
  simp only [List.getLast?, List.dropLast, List.getLast]
  rw [modifyAt_under m es ".got" _ _ _ hl hs]
  simp only [modifyAt, createIn, List.lookup]
  by_cases h1 : maySearch dm = true <;> by_cases h3 : mayWrite dm = true <;> simp [h1, h3]

theorem Stat_under (name : String) (rest : List String) (m u fi fb : Nat)
    (es : List (String × Node)) (G : Node)
    (hn : name ≠ "") (hp : splitPath name = ".got" :: rest)
    (hl : es.lookup ".got" = none) (hs : maySearch m = true) :
    Posix.Stat name (underGot m es u fi fb G) =
      match walk G rest with
      | .ok n => (.ok n.info, underGot m es u fi fb G)
      | .error e => (.error (.pathError "stat" name e), underGot m es u fi fb G) := by
  simp only [Posix.Stat, hn, if_false, hp, underGot, walk_under m es ".got" _ _ hl hs]

theorem Mkdir_under (name c : String) (rest : List String) (perm m u fi fb : Nat)
    (es : List (String × Node)) (G : Node)
    (hn : name ≠ "") (hp : splitPath name = ".got" :: (rest ++ [c]))
    (hl : es.lookup ".got" = none) (hs : maySearch m = true) :
    Posix.Mkdir name perm (underGot m es u fi fb G) =
      match modifyAt G rest (createIn c (.dir (applyUmask perm u) [])) with
      | .error e => (some (.pathError "mkdir" name e), underGot m es u fi fb G)
      | .ok G' =>
        if fi = 0 then (some (.pathError "mkdir" name .ENOSPC), underGot m es u fi fb G)
        else (none, underGot m es u (fi - 1) fb G') := by
  have h1 : (".got" :: (rest ++ [c])).getLast? = some c := by
    rw [← List.cons_append, List.getLast?_concat]
  have h2 : (".got" :: (rest ++ [c])).dropLast = ".got" :: rest := by
    rw [← List.cons_append, List.dropLast_concat]
  simp only [Posix.Mkdir, hn, if_false, hp, underGot, h1, h2]
  rw [modifyAt_under m es ".got" _ _ _ hl hs]
  cases modifyAt G rest (createIn c (.dir (applyUmask perm u) [])) <;> rfl

theorem mkdirAllBody_ok (path : String) (perm : Nat) (parent : FS → Option GoError × FS)
    (s s1 s2 : FS) (e : GoError)
    (h0 : Posix.Stat path s = (.error e, s)) (h1 : parent s = (none, s1))
    (h2 : Posix.Mkdir path perm s1 = (none, s2)) :
    Posix.mkdirAllBody path perm parent s = (none, s2) := by
  simp [Posix.mkdirAllBody, h0, h1, h2]

theorem mkdirAllBody_parent_fails (path : String) (perm : Nat)
    (parent : FS → Option GoError × FS) (s s1 : FS) (e err : GoError)
    (h0 : Posix.Stat path s = (.error e, s)) (h1 : parent s = (some err, s1)) :
    Posix.mkdirAllBody path perm parent s = (some err, s1) := by
  simp [Posix.mkdirAllBody, h0, h1]

theorem mkdirAllBody_mkdir_fails (path : String) (perm : Nat)
    (parent : FS → Option GoError × FS) (s s1 s2 : FS) (e e2 err : GoError)
    (h0 : Posix.Stat path s = (.error e, s)) (h1 : parent s = (none, s1))
    (h2 : Posix.Mkdir path perm s1 = (some err, s2))
    (h3 : Posix.Stat path s2 = (.error e2, s2)) :
    Posix.mkdirAllBody path perm parent s = (some err, s2) := by
  simp [Posix.mkdirAllBody, h0, h1, h2, h3]

theorem mkdirAllBody_exists (path : String) (perm : Nat)
    (parent : FS → Option GoError × FS) (s : FS) (info : FileInfo)
    (h0 : Posix.Stat path s = (.ok info, s)) (h1 : info.isDir = true) :
    Posix.mkdirAllBody path perm parent s = (none, s) := by
  simp [Posix.mkdirAllBody, h0, h1]

theorem MkdirAll_heads_eval (m u fi fb dm : Nat) (es : List (String × Node)) (o : Node)
    (hl : es.lookup ".got" = none) (hs : maySearch m = true)
    (hds : maySearch dm = true) (hdw : mayWrite dm = true) (hdm : applyUmask dirPerm u = dm) :
    Posix.MkdirAll ".got/refs/heads" dirPerm
        (underGot m es u fi fb (.dir dm [("objects", o)])) =
      if fi = 0 then
        (some (.pathError "mkdir" ".got/refs" .ENOSPC),
          underGot m es u fi fb (.dir dm [("objects", o)]))
      else if fi - 1 = 0 then
        (some (.pathError "mkdir" ".got/refs/heads" .ENOSPC),
          underGot m es u (fi - 1) fb (.dir dm [("objects", o), ("refs", .dir dm [])]))
      else
        (none, underGot m es u (fi - 1 - 1) fb
          (.dir dm [("objects", o), ("refs", .dir dm [("heads", .dir dm [])])])) := by
  have e1 : pathOf [".got", "refs", "heads"] = ".got/refs/heads" := by decide
  have e2 : pathOf [".got", "refs"] = ".got/refs" := by decide
  have e3 : pathOf [".got"] = ".got" := by decide
  have unfold1 : ∀ s, Posix.MkdirAll ".got/refs/heads" dirPerm s =
      Posix.mkdirAllBody ".got/refs/heads" dirPerm
        (Posix.mkdirAllBody ".got/refs" dirPerm
          (Posix.mkdirAllBody ".got" dirPerm (fun s => (none, s)))) s := by
    intro s
    simp only [Posix.MkdirAll, sp_heads, List.reverse_cons, List.reverse_nil, List.nil_append,
      List.cons_append, Posix.mkdirAllRev, e1, e2, e3]
  -- the state before the call
  have a1 : ∀ fi, Posix.Stat ".got/refs/heads" (underGot m es u fi fb (.dir dm [("objects", o)]))
      = (.error (.pathError "stat" ".got/refs/heads" .ENOENT),
        underGot m es u fi fb (.dir dm [("objects", o)])) := by
    intro fi
    rw [Stat_under _ _ m u fi fb es _ ne_heads sp_heads hl hs]
    simp [walk, hds, List.lookup]
  have a2 : ∀ fi, Posix.Stat ".got/refs" (underGot m es u fi fb (.dir dm [("objects", o)]))
      = (.error (.pathError "stat" ".got/refs" .ENOENT),
        underGot m es u fi fb (.dir dm [("objects", o)])) := by
    intro fi
    rw [Stat_under _ _ m u fi fb es _ ne_refs sp_refs hl hs]
    simp [walk, hds, List.lookup]
  have a3 : ∀ G, Posix.Stat ".got" (underGot m es u fi fb (.dir dm G))
      = (.ok ⟨true, dm, 0⟩, underGot m es u fi fb (.dir dm G)) := by
    intro G
    rw [Stat_under _ _ m u fi fb es _ ne_got sp_got hl hs]
    simp [walk, Node.info]
  have a4 : ∀ fi, Posix.Mkdir ".got/refs" dirPerm (underGot m es u fi fb (.dir dm [("objects", o)]))
      = if fi = 0 then (some (.pathError "mkdir" ".got/refs" .ENOSPC),
          underGot m es u fi fb (.dir dm [("objects", o)]))
        else (none, underGot m es u (fi - 1) fb (.dir dm [("objects", o), ("refs", .dir dm [])])) := by
    intro fi
    rw [Mkdir_under ".got/refs" "refs" [] dirPerm m u fi fb es _ ne_refs sp_refs hl hs]
    simp [modifyAt, createIn, hds, hdw, List.lookup, hdm]
  have a5 : ∀ fi, Posix.Stat ".got/refs/heads"
      (underGot m es u fi fb (.dir dm [("objects", o), ("refs", .dir dm [])]))
      = (.error (.pathError "stat" ".got/refs/heads" .ENOENT),
        underGot m es u fi fb (.dir dm [("objects", o), ("refs", .dir dm [])])) := by
    intro fi
    rw [Stat_under _ _ m u fi fb es _ ne_heads sp_heads hl hs]
    simp [walk, hds, List.lookup]
  have a6 : ∀ fi, Posix.Mkdir ".got/refs/heads" dirPerm
      (underGot m es u fi fb (.dir dm [("objects", o), ("refs", .dir dm [])]))
      = if fi = 0 then (some (.pathError "mkdir" ".got/refs/heads" .ENOSPC),
          underGot m es u fi fb (.dir dm [("objects", o), ("refs", .dir dm [])]))
        else (none, underGot m es u (fi - 1) fb
          (.dir dm [("objects", o), ("refs", .dir dm [("heads", .dir dm [])])])) := by
    intro fi
    rw [Mkdir_under ".got/refs/heads" "heads" ["refs"] dirPerm m u fi fb es _ ne_heads sp_heads hl hs]
    simp [modifyAt, createIn, hds, hdw, List.lookup, hdm, replaceEntry]
  have b1 := mkdirAllBody_exists ".got" dirPerm (fun s => (none, s)) _ _ (a3 [("objects", o)]) rfl
  rw [unfold1]
  by_cases h0 : fi = 0
  · rw [if_pos h0]
    have c1 := a4 fi
    rw [if_pos h0] at c1
    have b2 := mkdirAllBody_mkdir_fails ".got/refs" dirPerm _ _ _ _ _ _ _ (a2 fi) b1 c1 (a2 fi)
    exact mkdirAllBody_parent_fails ".got/refs/heads" dirPerm _ _ _ _ _ (a1 fi) b2
  · rw [if_neg h0]
    have c1 := a4 fi
    rw [if_neg h0] at c1
    have b2 := mkdirAllBody_ok ".got/refs" dirPerm _ _ _ _ _ (a2 fi) b1 c1
    by_cases h1 : fi - 1 = 0
    · rw [if_pos h1]
      have c2 := a6 (fi - 1)
      rw [if_pos h1] at c2
      exact mkdirAllBody_mkdir_fails ".got/refs/heads" dirPerm _ _ _ _ _ _ _ (a1 fi) b2 c2
        (a5 (fi - 1))
    · rw [if_neg h1]
      have c2 := a6 (fi - 1)
      rw [if_neg h1] at c2
      exact mkdirAllBody_ok ".got/refs/heads" dirPerm _ _ _ _ _ (a1 fi) b2 c2

theorem WriteFile_under_new (name c data : String) (perm m u fi fb dm : Nat)
    (es entries : List (String × Node))
    (hn : name ≠ "") (hp : splitPath name = [".got", c])
    (hl : es.lookup ".got" = none) (hs : maySearch m = true)
    (hds : maySearch dm = true) (hdw : mayWrite dm = true) (hc : entries.lookup c = none) :
    Posix.WriteFile name data perm (underGot m es u fi fb (.dir dm entries)) =
      if fi = 0 then
        (some (.pathError "open" name .ENOSPC), underGot m es u fi fb (.dir dm entries))
      else if data = "" then
        (none, underGot m es u (fi - 1) fb
          (.dir dm (entries ++ [(c, .file (applyUmask perm u) "")])))
      else if data.utf8ByteSize ≤ fb then
        (none, underGot m es u (fi - 1) (fb - data.utf8ByteSize)
          (.dir dm (entries ++ [(c, .file (applyUmask perm u) data)])))
      else
        (some (.pathError "write" name .ENOSPC), underGot m es u (fi - 1) fb
          (.dir dm (entries ++ [(c, .file (applyUmask perm u) "")]))) := by
  have w1 : walk (.dir m (es ++ [(".got", .dir dm entries)])) [".got", c] = .error .ENOENT := by
    rw [walk_under m es ".got" _ _ hl hs]
    simp [walk, hds, hc]
  have o1 : Posix.openCreateTrunc name perm (underGot m es u fi fb (.dir dm entries)) =
      if fi = 0 then
        (some (.pathError "open" name .ENOSPC), underGot m es u fi fb (.dir dm entries))
      else (none, underGot m es u (fi - 1) fb
          (.dir dm (entries ++ [(c, .file (applyUmask perm u) "")]))) := by
    simp only [Posix.openCreateTrunc, hn, if_false, hp, underGot, w1]
    simp only [List.getLast?, List.dropLast, List.getLast]
    rw [modifyAt_under m es ".got" _ _ _ hl hs]
    simp [modifyAt, createIn, hds, hdw, hc]
  have m1 : modifyAt (.dir m (es ++ [(".got",
        .dir dm (entries ++ [(c, .file (applyUmask perm u) "")]))])) [".got", c] (store data)
      = .ok (.dir m (es ++ [(".got",
        .dir dm (entries ++ [(c, .file (applyUmask perm u) data)]))])) := by
    rw [modifyAt_under m es ".got" _ _ _ hl hs]
    simp [modifyAt, hds, lookup_append_new entries c _ hc, store,
      replaceEntry_append_new entries c _ _ hc]
  simp only [Posix.WriteFile, o1]
  by_cases h0 : fi = 0
  · simp [h0]
  · simp only [h0, if_false, Posix.write]
    by_cases h1 : data = ""
    · simp [h1]
    · simp only [h1, if_false, underGot, hp, m1]

theorem Initialize_posix_eval (m u fi fb : Nat) (es : List (String × Node))
    (hl : es.lookup ".got" = none) (hs : maySearch m = true) :
    Initialize posix ⟨.dir m es, u, fi, fb⟩ =
      if mayWrite m = true then
        if fi = 0 then
          (some (ErrorfW "failed to create .got directory: " (.pathError "mkdir" ".got" .ENOSPC)),
            ⟨.dir m es, u, fi, fb⟩)
        else if maySearch (applyUmask dirPerm u) = true ∧ mayWrite (applyUmask dirPerm u) = true then
          if fi = 1 then
            (some (ErrorfW "failed to create objects directory: "
              (.pathError "mkdir" ".got/objects" .ENOSPC)),
              underGot m es u 0 fb (.dir (applyUmask dirPerm u) []))
          else if fi = 2 then
            (some (ErrorfW "failed to create refs/heads directory: "
              (.pathError "mkdir" ".got/refs" .ENOSPC)),
              underGot m es u 0 fb (.dir (applyUmask dirPerm u)
                [("objects", .dir (applyUmask dirPerm u) [])]))
          else if fi = 3 then
            (some (ErrorfW "failed to create refs/heads directory: "
              (.pathError "mkdir" ".got/refs/heads" .ENOSPC)),
              underGot m es u 0 fb (.dir (applyUmask dirPerm u)
                [("objects", .dir (applyUmask dirPerm u) []),
                 ("refs", .dir (applyUmask dirPerm u) [])]))
          else if fi = 4 then
            (some (ErrorfW "failed to create HEAD file: "
              (.pathError "open" ".got/HEAD" .ENOSPC)),
              underGot m es u 0 fb (.dir (applyUmask dirPerm u)
                [("objects", .dir (applyUmask dirPerm u) []),
                 ("refs", .dir (applyUmask dirPerm u) [("heads", .dir (applyUmask dirPerm u) [])])]))
          else if 20 ≤ fb then
            if fi = 5 then
              (some (ErrorfW "failed to create index file: "
                (.pathError "open" ".got/index" .ENOSPC)),
                underGot m es u 0 (fb - 20) (.dir (applyUmask dirPerm u)
                  [("objects", .dir (applyUmask dirPerm u) []),
                   ("refs", .dir (applyUmask dirPerm u) [("heads", .dir (applyUmask dirPerm u) [])]),
                   ("HEAD", .file (applyUmask filePerm u) "ref: refs/heads/main")]))
            else (none, underGot m es u (fi - 6) (fb - 20) (skeleton u))
          else
            (some (ErrorfW "failed to create HEAD file: "
              (.pathError "write" ".got/HEAD" .ENOSPC)),
              underGot m es u (fi - 5) fb (.dir (applyUmask dirPerm u)
                [("objects", .dir (applyUmask dirPerm u) []),
                 ("refs", .dir (applyUmask dirPerm u) [("heads", .dir (applyUmask dirPerm u) [])]),
                 ("HEAD", .file (applyUmask filePerm u) "")]))
        else
          (some (ErrorfW "failed to create objects directory: "
            (.pathError "mkdir" ".got/objects" .EACCES)),
            underGot m es u (fi - 1) fb (.dir (applyUmask dirPerm u) []))
      else
        (some (ErrorfW "failed to create .got directory: " (.pathError "mkdir" ".got" .EACCES)),
          ⟨.dir m es, u, fi, fb⟩) := by
  have hstat := Stat_got_eval m u fi fb es
  rw [if_pos hs, hl] at hstat
  have hmk := Mkdir_got_eval m u fi fb es
  rw [if_pos hs, hl] at hmk
  simp only [Initialize, posix, path_objects, path_heads, path_head, path_index, headContent_eq]
  simp only [gotDir_eq, hstat, hmk]
  by_cases hw : mayWrite m = true
  swap
  · simp [hw]
  simp only [hw, if_true]
  by_cases h0 : fi = 0
  · simp [h0]
  simp only [h0, if_false]
  rw [Mkdir_objects_eval m u (fi - 1) fb _ es hl hs]
  by_cases hd : maySearch (applyUmask dirPerm u) = true ∧ mayWrite (applyUmask dirPerm u) = true
  swap
  · simp [hd]
  simp only [hd, and_self, if_true]
  by_cases h1 : fi = 1
  · simp [h1]
  have h1' : ¬ fi - 1 = 0 := by omega
  simp only [h1, h1', if_false]
  rw [MkdirAll_heads_eval m u (fi - 1 - 1) fb _ es _ hl hs hd.1 hd.2 rfl]
  by_cases h2 : fi = 2
  · simp [h2]
  have h2' : ¬ fi - 1 - 1 = 0 := by omega
  simp only [h2, h2', if_false]
  by_cases h3 : fi = 3
  · simp [h3]
  have h3' : ¬ fi - 1 - 1 - 1 = 0 := by omega
  simp only [h3, h3', if_false]
  rw [WriteFile_under_new ".got/HEAD" "HEAD" _ filePerm m u _ fb _ es _ ne_head sp_head hl hs
    hd.1 hd.2 (by simp [List.lookup])]
  by_cases h4 : fi = 4
  · simp [h4]
  have h4' : ¬ fi - 1 - 1 - 1 - 1 = 0 := by omega
  simp only [h4, h4', if_false, headContent_ne, headContent_size]
  by_cases hb : 20 ≤ fb
  swap
  · simp only [hb, if_false]
    have : fi - 1 - 1 - 1 - 1 - 1 = fi - 5 := by omega
    rw [this]; rfl
  simp only [hb, if_true]
  rw [WriteFile_under_new ".got/index" "index" _ filePerm m u _ _ _ es _ ne_index sp_index hl hs
    hd.1 hd.2 (by simp [List.lookup])]
  by_cases h5 : fi = 5
  · simp [h5]
  have h5' : ¬ fi - 1 - 1 - 1 - 1 - 1 = 0 := by omega
  have : fi - 1 - 1 - 1 - 1 - 1 - 1 = fi - 6 := by omega
  simp only [h5, h5', if_false, if_true, this]
  rfl

/-! ## No call removes or retypes a node -/

theorem keeps_refl (a : Node) : a.keeps a :=
  fun _ x h => ⟨x, h, rfl⟩

theorem keeps_trans {a b c : Node} (h1 : a.keeps b) (h2 : b.keeps c) : a.keeps c := by
  intro p x hx
  obtain ⟨y, hy, hyx⟩ := h1 p x hx
  obtain ⟨z, hz, hzy⟩ := h2 p y hy
  exact ⟨z, hz, hzy.trans hyx⟩

theorem lookup_replaceEntry (es : List (String × Node)) (c x : String) (n : Node) :
    (replaceEntry es c n).lookup x =
      if x = c then (es.lookup c).map (fun _ => n) else es.lookup x := by
  induction es with
  | nil => simp [replaceEntry]
  | cons hd tl ih =>
    obtain ⟨a, b⟩ := hd
    have hrep : replaceEntry ((a, b) :: tl) c n
        = (if a = c then (c, n) else (a, b)) :: replaceEntry tl c n := rfl
    rw [hrep]
    by_cases hac : a = c
    · subst hac
      rw [if_pos rfl]
      by_cases hxa : x = a
      · subst hxa
        simp
      · have hb : (x == a) = false := by simpa using hxa
        rw [List.lookup_cons, hb, ih]
        simp only [hxa, if_false]
        rw [List.lookup_cons, hb]
    · rw [if_neg hac]
      by_cases hxa : x = a
      · subst hxa
        simp [hac]
      · have hb : (x == a) = false := by simpa using hxa
        rw [List.lookup_cons, hb, ih]
        by_cases hxc : x = c
        · subst hxc
          have hb2 : (x == a) = false := hb
          simp only [if_true]
          rw [List.lookup_cons, hb2]
        · simp only [hxc, if_false]
          rw [List.lookup_cons, hb]

theorem createIn_keeps (c : String) (new a b : Node) (h : createIn c new a = .ok b) :
    a.keeps b := by
  cases a with
  | file m d => simp [createIn] at h
  | dir m es =>
    simp only [createIn] at h
    split at h
    · split at h
      · cases h
      · split at h
        · cases h
          intro p x hx
          cases p with
          | nil =>
            simp only [nodeAt, Option.some.injEq] at hx
            subst hx
            exact ⟨_, rfl, rfl⟩
          | cons k q =>
            simp only [nodeAt] at hx ⊢
            cases hk : es.lookup k with
            | none => simp [hk] at hx
            | some child =>
              rw [hk] at hx
              simp only [List.lookup_append, hk, Option.or_some]
              exact ⟨x, hx, rfl⟩
        · cases h
    · cases h

theorem truncate_keeps (a b : Node) (h : truncate a = .ok b) : a.keeps b := by
  cases a with
  | dir m es => simp [truncate] at h
  | file m d =>
    simp only [truncate] at h
    split at h
    · cases h
      intro p x hx
      cases p with
      | nil =>
        simp only [nodeAt, Option.some.injEq] at hx
        subst hx
        exact ⟨_, rfl, rfl⟩
      | cons k q => simp [nodeAt] at hx
    · cases h

theorem store_keeps (data : String) (a b : Node) (h : store data a = .ok b) : a.keeps b := by
  cases a with
  | dir m es => simp [store] at h
  | file m d =>
    simp only [store] at h
    cases h
    intro p x hx
    cases p with
    | nil =>
      simp only [nodeAt, Option.some.injEq] at hx
      subst hx
      exact ⟨_, rfl, rfl⟩
    | cons k q => simp [nodeAt] at hx

theorem modifyAt_keeps (g : Node → Except Errno Node)
    (hg : ∀ a b, g a = .ok b → a.keeps b) :
    ∀ (path : List String) (a b : Node), modifyAt a path g = .ok b → a.keeps b := by
  intro path
  induction path with
  | nil =>
    intro a b h
    exact hg a b (by simpa [modifyAt] using h)
  | cons c rest ih =>
    intro a b h
    cases a with
    | file m d => simp [modifyAt] at h
    | dir m es =>
      simp only [modifyAt] at h
      split at h
      · cases hc : es.lookup c with
        | none => simp [hc] at h
        | some child =>
          rw [hc] at h
          simp only at h
          cases hm : modifyAt child rest g with
          | error e => simp [hm] at h
          | ok child' =>
            rw [hm] at h
            simp only [Except.ok.injEq] at h
            subst h
            have hk := ih child child' hm
            intro p x hx
            cases p with
            | nil =>
              simp only [nodeAt, Option.some.injEq] at hx
              subst hx
              exact ⟨_, rfl, rfl⟩
            | cons k q =>
              simp only [nodeAt, lookup_replaceEntry] at hx ⊢
              by_cases hkc : k = c
              · subst hkc
                rw [hc] at hx
                simp only [if_true, hc, Option.map_some']
                exact hk q x hx
              · simp only [hkc, if_false]
                cases hk2 : es.lookup k with
                | none => simp [hk2] at hx
                | some ch =>
                  rw [hk2] at hx
                  exact ⟨x, hx, rfl⟩
      · cases h

theorem Stat_state (name : String) (s : FS) : (Posix.Stat name s).2 = s := by
  unfold Posix.Stat
  split
  · rfl
  · split <;> rfl

theorem Mkdir_keeps (name : String) (perm : Nat) (s : FS) :
    s.cwd.keeps (Posix.Mkdir name perm s).2.cwd := by
  unfold Posix.Mkdir
  split
  · exact keeps_refl _
  · split
    · exact keeps_refl _
    · split
      · exact keeps_refl _
      · rename_i cwd hm
        split
        · exact keeps_refl _
        · exact modifyAt_keeps _ (createIn_keeps _ _) _ _ _ hm

theorem mkdirAllBody_keeps (path : String) (perm : Nat) (parent : FS → Option GoError × FS)
    (hp : ∀ s : FS, s.cwd.keeps (parent s).2.cwd) (s : FS) :
    s.cwd.keeps (Posix.mkdirAllBody path perm parent s).2.cwd := by
  unfold Posix.mkdirAllBody
  have h0 := Stat_state path s
  rcases hs : Posix.Stat path s with ⟨r, t⟩
  rw [hs] at h0
  simp only at h0
  subst h0
  cases r with
  | ok dir =>
    simp only
    split <;> exact keeps_refl _
  | error e =>
    simp only
    have h1 := hp t
    rcases hq : parent t with ⟨_ | err, t1⟩
    · rw [hq] at h1
      simp only at h1 ⊢
      have h2 := Mkdir_keeps path perm t1
      rcases hk : Posix.Mkdir path perm t1 with ⟨_ | err2, t2⟩
      · rw [hk] at h2
        exact keeps_trans h1 h2
      · rw [hk] at h2
        simp only at h2 ⊢
        have h3 := Stat_state path t2
        rcases hs2 : Posix.Stat path t2 with ⟨r2, t3⟩
        rw [hs2] at h3
        simp only at h3
        subst h3
        cases r2 with
        | ok dir2 =>
          simp only
          split <;> exact keeps_trans h1 h2
        | error e2 => exact keeps_trans h1 h2
    · rw [hq] at h1
      exact h1

theorem mkdirAllRev_keeps (perm : Nat) :
    ∀ (comps : List String) (s : FS), s.cwd.keeps (Posix.mkdirAllRev perm comps s).2.cwd := by
  intro comps
  induction comps with
  | nil =>
    intro s
    exact mkdirAllBody_keeps _ _ _ (fun s => keeps_refl _) s
  | cons c rest ih =>
    intro s
    cases rest with
    | nil => exact mkdirAllBody_keeps _ _ _ (fun s => keeps_refl _) s
    | cons d rest2 => exact mkdirAllBody_keeps _ _ _ ih s

theorem openCreateTrunc_keeps (name : String) (perm : Nat) (s : FS) :
    s.cwd.keeps (Posix.openCreateTrunc name perm s).2.cwd := by
  unfold Posix.openCreateTrunc
  split
  · exact keeps_refl _
  · split
    · split
      · exact keeps_refl _
      · rename_i cwd hm
        exact modifyAt_keeps _ truncate_keeps _ _ _ hm
    · split
      · exact keeps_refl _
      · split
        · exact keeps_refl _
        · rename_i cwd hm
          split
          · exact keeps_refl _
          · exact modifyAt_keeps _ (createIn_keeps _ _) _ _ _ hm
    · exact keeps_refl _

theorem write_keeps (name data : String) (s : FS) :
    s.cwd.keeps (Posix.write name data s).2.cwd := by
  unfold Posix.write
  split
  · exact keeps_refl _
  · split
    · split
      · exact keeps_refl _
      · rename_i cwd hm
        exact modifyAt_keeps _ (store_keeps data) _ _ _ hm
    · exact keeps_refl _

theorem WriteFile_keeps (name data : String) (perm : Nat) (s : FS) :
    s.cwd.keeps (Posix.WriteFile name data perm s).2.cwd := by
  unfold Posix.WriteFile
  have h1 := openCreateTrunc_keeps name perm s
  rcases ho : Posix.openCreateTrunc name perm s with ⟨_ | err, t⟩
  · rw [ho] at h1
    exact keeps_trans h1 (write_keeps name data t)
  · rw [ho] at h1
    exact h1

theorem exec_keeps (c : Call) (s : FS) : s.cwd.keeps (posix.exec c s).2.cwd := by
  cases c with
  | stat name =>
    have h := Stat_state name s
    simp only [Sys.exec, posix]
    rcases hs : Posix.Stat name s with ⟨r | r, t⟩ <;> rw [hs] at h <;> simp only at h ⊢ <;>
      subst h <;> exact keeps_refl _
  | mkdir name perm => exact Mkdir_keeps name perm s
  | mkdirAll name perm => exact mkdirAllRev_keeps perm _ s
  | writeFile name data perm => exact WriteFile_keeps name data perm s

/-! ## The cases of `Initialize` on the POSIX instance -/

theorem exists_gotDir (s : FS) :
    s.exists gotDir =
      match s.cwd with
      | .dir _ es => (es.lookup ".got").isSome
      | .file _ _ => false := by
  simp only [FS.exists, gotDir_eq, sp_got]
  cases s.cwd with
  | file m d => rfl
  | dir m es =>
    simp only [nodeAt]
    cases es.lookup ".got" <;> rfl

theorem Initialize_posix_present (m u fi fb : Nat) (es : List (String × Node)) (n : Node)
    (hl : es.lookup ".got" = some n) (hs : maySearch m = true) :
    Initialize posix ⟨.dir m es, u, fi, fb⟩ = (some alreadyInitialized, ⟨.dir m es, u, fi, fb⟩) := by
  have hstat := Stat_got_eval m u fi fb es
  rw [if_pos hs, hl] at hstat
  simp only [Initialize, posix, gotDir_eq, hstat]
  rfl

theorem Initialize_posix_unsearchable (m u fi fb : Nat) (es : List (String × Node))
    (hs : ¬ maySearch m = true) :
    Initialize posix ⟨.dir m es, u, fi, fb⟩ =
      (some (ErrorfW "failed to create .got directory: " (.pathError "mkdir" ".got" .EACCES)),
        ⟨.dir m es, u, fi, fb⟩) := by
  have hstat := Stat_got_eval m u fi fb es
  rw [if_neg hs] at hstat
  have hmk := Mkdir_got_eval m u fi fb es
  rw [if_neg hs] at hmk
  simp only [Initialize, posix, gotDir_eq, hstat, hmk]

theorem Initialize_posix_file (m u fi fb : Nat) (d : String) :
    Initialize posix ⟨.file m d, u, fi, fb⟩ =
      (some (ErrorfW "failed to create .got directory: " (.pathError "mkdir" ".got" .ENOTDIR)),
        ⟨.file m d, u, fi, fb⟩) := by
  simp only [Initialize, posix, gotDir_eq, Posix.Stat, Posix.Mkdir, ne_got, if_false, sp_got]
  simp [walk, modifyAt, createIn]

theorem Initialize_underGot (m u fi fb : Nat) (es : List (String × Node)) (G : Node)
    (hl : es.lookup ".got" = none) (hs : maySearch m = true) :
    Initialize posix (underGot m es u fi fb G) = (some alreadyInitialized, underGot m es u fi fb G) :=
  Initialize_posix_present m u fi fb _ G (lookup_append_new es ".got" G hl) hs

/-- What a successful `Initialize` started from and what it left. -/
theorem Initialize_posix_success (s s' : FS) (h : Initialize posix s = (none, s')) :
    ∃ m es, s.cwd = .dir m es ∧ es.lookup ".got" = none ∧ maySearch m = true ∧
      mayWrite m = true ∧ maySearch (applyUmask dirPerm s.umask) = true ∧
      mayWrite (applyUmask dirPerm s.umask) = true ∧ 6 ≤ s.freeInodes ∧ 20 ≤ s.freeBytes ∧
      s' = underGot m es s.umask (s.freeInodes - 6) (s.freeBytes - 20) (skeleton s.umask) := by
  obtain ⟨cwd, u, fi, fb⟩ := s
  cases cwd with
  | file m d =>
    rw [Initialize_posix_file] at h
    simp at h
  | dir m es =>
    by_cases hs : maySearch m = true
    swap
    · rw [Initialize_posix_unsearchable m u fi fb es hs] at h
      simp at h
    cases hl : es.lookup ".got" with
    | some n =>
      rw [Initialize_posix_present m u fi fb es n hl hs] at h
      simp at h
    | none =>
      rw [Initialize_posix_eval m u fi fb es hl hs] at h
      refine ⟨m, es, rfl, hl, hs, ?_⟩
      split_ifs at h with h1 h2 h3 h4 h5 h6 h7 h8 h9
      all_goals simp only [Prod.mk.injEq, reduceCtorEq, false_and, true_and] at h
      exact ⟨h1, h3.1, h3.2, (by show 6 ≤ fi; omega), h8, h.symm⟩


theorem Initialize_result {σ : Type} (os : Sys σ) (s : σ) (r : Option GoError)
    (h : (Initialize os s).1 = r) : Initialize os s = (r, (Initialize os s).2) :=
  Prod.ext h rfl

/-- The skeleton as the observations see it. -/
theorem nodeAt_underGot (m u fi fb : Nat) (es : List (String × Node)) (G : Node)
    (rest : List String) (hl : es.lookup ".got" = none) :
    nodeAt (underGot m es u fi fb G).cwd (".got" :: rest) = nodeAt G rest := by
  simp [underGot, nodeAt, lookup_append_new es ".got" G hl]


theorem afterCalls_keeps : ∀ (cs : List Call) (s : FS), s.cwd.keeps (afterCalls posix cs s).cwd := by
  intro cs
  induction cs with
  | nil => intro s; exact keeps_refl _
  | cons c rest ih =>
    intro s
    exact keeps_trans (exec_keeps c s) (ih _)

theorem keeps_exists (s t : FS) (h : s.cwd.keeps t.cwd) (name : String) :
    (s.exists name = true → t.exists name = true) ∧ (s.isDir name = true → t.isDir name = true) := by
  constructor
  · intro hx
    simp only [FS.exists, Option.isSome_iff_exists] at hx ⊢
    obtain ⟨x, hx⟩ := hx
    obtain ⟨y, hy, -⟩ := h _ x hx
    exact ⟨y, hy⟩
  · intro hx
    simp only [FS.isDir] at hx ⊢
    cases hn : nodeAt s.cwd (splitPath name) with
    | none => simp [hn] at hx
    | some x =>
      cases x with
      | file m d => simp [hn] at hx
      | dir m es =>
        obtain ⟨y, hy, hyd⟩ := h _ _ hn
        rw [hy]
        cases y with
        | file m2 d2 => simp [Node.info] at hyd
        | dir m2 es2 => rfl

theorem stepLabel_of_call (k : Nat) (c : Call) (hc : creationCalls[k]? = some c) :
    k < (stepMessages.zip creationCalls).length ∧
    ((stepMessages.zip creationCalls).map Prod.snd).getD k (.stat "") = c ∧
    ∃ pfx, stepMessages[k]? = some pfx ∧
      ((stepMessages.zip creationCalls).map Prod.fst).getD k "" = pfx := by
  have hk : k < 5 := by
    by_contra h
    have : creationCalls.length ≤ k := by simpa [creationCalls] using h
    rw [List.getElem?_eq_none this] at hc
    cases hc
  refine ⟨by rw [creation_steps_length]; exact hk, ?_, ?_⟩
  · rw [creation_steps_calls, List.getD_eq_getElem?_getD, hc]; rfl
  · rw [creation_steps_labels]
    interval_cases k <;> exact ⟨_, rfl, rfl⟩

/-- The outcome of `Initialize` when the `k`-th creation call is the first to fail. -/
theorem Initialize_fails_at {σ : Type} (os : Sys σ) (s s0 sk : σ)
    (e0 e : GoError) (k : Nat) (c : Call)
    (hguard : os.Stat gotDir s = (.error e0, s0))
    (hprev : callsSucceed os (creationCalls.take k) s0 = true)
    (hc : creationCalls[k]? = some c)
    (hfail : os.exec c (afterCalls os (creationCalls.take k) s0) = (some e, sk)) :
    ∃ pfx, stepMessages[k]? = some pfx ∧
      Initialize os s = (some (ErrorfW pfx e), sk) ∧
      (Initialize (traced os) ([], s)).2 = (Call.stat gotDir :: creationCalls.take (k + 1), sk) := by
  obtain ⟨hk, hget, pfx, hp1, hp2⟩ := stepLabel_of_call k c hc
  have h1 := runSteps_fails os e sk (stepMessages.zip creationCalls) k s0 hk
    (by rw [creation_steps_calls]; exact hprev) (by rw [hget, creation_steps_calls]; exact hfail)
  have h2 := runSteps_fails_log os e sk (stepMessages.zip creationCalls) k [Call.stat gotDir] s0 hk
    (by rw [creation_steps_calls]; exact hprev) (by rw [hget, creation_steps_calls]; exact hfail)
  have h3 : Initialize os s = runSteps os (stepMessages.zip creationCalls) s0 := by
    rw [Initialize_eq_runSteps, hguard]
  have h4 : Initialize (traced os) ([], s)
      = runSteps (traced os) (stepMessages.zip creationCalls) ([Call.stat gotDir], s0) := by
    rw [Initialize_eq_runSteps]
    simp [traced, hguard]
  rw [hp2] at h1
  refine ⟨pfx, hp1, by rw [h3, h1], ?_⟩
  rw [h4]
  apply Prod.ext
  · rw [h2, creation_steps_calls]; rfl
  · rw [(runSteps_traced os _ _ _).2, h1]

theorem usage_written : written .stdout printUsage = usageText ∧ written .stderr printUsage = "" := by
  decide


/-- Every outcome `Initialize` can have on the POSIX instance. -/
theorem Initialize_posix_outcomes (s : FS) :
    (Initialize posix s).1 ∈
      [ none,
        some alreadyInitialized,
        some (ErrorfW "failed to create .got directory: " (.pathError "mkdir" ".got" .ENOTDIR)),
        some (ErrorfW "failed to create .got directory: " (.pathError "mkdir" ".got" .EACCES)),
        some (ErrorfW "failed to create .got directory: " (.pathError "mkdir" ".got" .ENOSPC)),
        some (ErrorfW "failed to create objects directory: "
          (.pathError "mkdir" ".got/objects" .EACCES)),
        some (ErrorfW "failed to create objects directory: "
          (.pathError "mkdir" ".got/objects" .ENOSPC)),
        some (ErrorfW "failed to create refs/heads directory: "
          (.pathError "mkdir" ".got/refs" .ENOSPC)),
        some (ErrorfW "failed to create refs/heads directory: "
          (.pathError "mkdir" ".got/refs/heads" .ENOSPC)),
        some (ErrorfW "failed to create HEAD file: " (.pathError "open" ".got/HEAD" .ENOSPC)),
        some (ErrorfW "failed to create HEAD file: " (.pathError "write" ".got/HEAD" .ENOSPC)),
        some (ErrorfW "failed to create index file: " (.pathError "open" ".got/index" .ENOSPC)) ] := by
  obtain ⟨cwd, u, fi, fb⟩ := s
  cases cwd with
  | file m d => rw [Initialize_posix_file]; simp
  | dir m es =>
    by_cases hs : maySearch m = true
    swap
    · rw [Initialize_posix_unsearchable m u fi fb es hs]; simp
    cases hl : es.lookup ".got" with
    | some n => rw [Initialize_posix_present m u fi fb es n hl hs]; simp
    | none =>
      rw [Initialize_posix_eval m u fi fb es hl hs]
      split_ifs <;> simp

theorem Initialize_posix_one_line (s : FS) (err : GoError) (h : (Initialize posix s).1 = some err) :
    err.Error.toList.contains (Char.ofNat 10) = false := by
  have hm := Initialize_posix_outcomes s
  rw [h] at hm
  simp only [List.mem_cons, Option.some.injEq, List.mem_singleton, reduceCtorEq, false_or,
    List.not_mem_nil, or_false] at hm
  rcases hm with h | h | h | h | h | h | h | h | h | h | h <;> subst h <;> decide

/-- A failed `Initialize` that left `.got` behind left a state in which the working
directory is searchable and `.got` is its last entry. -/
theorem Initialize_posix_partial_shape (s s' : FS) (err : GoError)
    (h0 : s.exists gotDir = false) (h : Initialize posix s = (some err, s'))
    (h1 : s'.exists gotDir = true) :
    ∃ m es u fi fb G, es.lookup ".got" = none ∧ maySearch m = true ∧
      s' = underGot m es u fi fb G := by
  obtain ⟨cwd, u, fi, fb⟩ := s
  cases cwd with
  | file m d =>
    rw [Initialize_posix_file] at h
    simp only [Prod.mk.injEq] at h
    rw [← h.2, h0] at h1
    cases h1
  | dir m es =>
    by_cases hs : maySearch m = true
    swap
    · rw [Initialize_posix_unsearchable m u fi fb es hs] at h
      simp only [Prod.mk.injEq] at h
      rw [← h.2, h0] at h1
      cases h1
    have hl : es.lookup ".got" = none := by
      rw [exists_gotDir] at h0
      simpa using h0
    rw [Initialize_posix_eval m u fi fb es hl hs] at h
    split_ifs at h <;> simp only [Prod.mk.injEq] at h <;>
      first
      | (exfalso; rw [← h.2, h0] at h1; cases h1)
      | exact ⟨m, es, _, _, _, _, hl, hs, h.2.symm⟩

theorem repeatInitialize_underGot (m u fi fb : Nat) (es : List (String × Node)) (G : Node)
    (hl : es.lookup ".got" = none) (hs : maySearch m = true) :
    ∀ n, repeatInitialize posix n (underGot m es u fi fb G) =
      (List.replicate n (some alreadyInitialized), underGot m es u fi fb G) := by
  intro n
  induction n with
  | zero => rfl
  | succ n ih =>
    simp only [repeatInitialize, Initialize_underGot m u fi fb es G hl hs, ih, List.replicate_succ]


theorem runSteps_ok_log {σ : Type} (os : Sys σ) :
    ∀ (steps : List (String × Call)) (l : List Call) (s : σ),
      (runSteps os steps s).1 = none →
      (runSteps (traced os) steps (l, s)).2.1 = l ++ steps.map Prod.snd := by
  intro steps
  induction steps with
  | nil => intro l s _; simp [runSteps]
  | cons st rest ih =>
    intro l s h
    obtain ⟨pfx, c⟩ := st
    simp only [runSteps, exec_traced] at h ⊢
    rcases hx : os.exec c s with ⟨_ | e, t⟩
    · rw [hx] at h
      simp only at h ⊢
      rw [ih (l ++ [c]) t h]
      simp
    · rw [hx] at h
      simp at h

theorem Initialize_ok_log {σ : Type} (os : Sys σ) (s : σ) (h : (Initialize os s).1 = none) :
    (Initialize (traced os) ([], s)).2.1 = Call.stat gotDir :: creationCalls := by
  rw [Initialize_eq_runSteps] at h ⊢
  have ht : (traced os).Stat gotDir ([], s)
      = ((os.Stat gotDir s).1, ([Call.stat gotDir], (os.Stat gotDir s).2)) := rfl
  rw [ht]
  rcases hx : os.Stat gotDir s with ⟨r | r, t⟩
  · rw [hx] at h
    simp only at h ⊢
    rw [runSteps_ok_log os _ _ t h, creation_steps_calls]
    rfl
  · rw [hx] at h
    simp at h

theorem nodeAt_outside (m u fi fb : Nat) (es : List (String × Node)) (G : Node)
    (c : String) (rest : List String) (hc : c ≠ ".got") :
    nodeAt (underGot m es u fi fb G).cwd (c :: rest) = nodeAt (.dir m es) (c :: rest) := by
  have hb : (c == ".got") = false := by simpa using hc
  simp [underGot, nodeAt, List.lookup_append, List.lookup, hb]

/-- What `os.Stat` reports below `.got` once the skeleton is there. -/
theorem Stat_skeleton (m u fi fb : Nat) (es : List (String × Node))
    (hl : es.lookup ".got" = none) (hs : maySearch m = true)
    (hd : maySearch (applyUmask dirPerm u) = true) :
    (Posix.Stat ".got" (underGot m es u fi fb (skeleton u))).1
      = .ok ⟨true, applyUmask dirPerm u, 0⟩ ∧
    (Posix.Stat ".got/objects" (underGot m es u fi fb (skeleton u))).1
      = .ok ⟨true, applyUmask dirPerm u, 0⟩ ∧
    (Posix.Stat ".got/refs" (underGot m es u fi fb (skeleton u))).1
      = .ok ⟨true, applyUmask dirPerm u, 0⟩ ∧
    (Posix.Stat ".got/refs/heads" (underGot m es u fi fb (skeleton u))).1
      = .ok ⟨true, applyUmask dirPerm u, 0⟩ ∧
    (Posix.Stat ".got/HEAD" (underGot m es u fi fb (skeleton u))).1
      = .ok ⟨false, applyUmask filePerm u, 20⟩ ∧
    (Posix.Stat ".got/index" (underGot m es u fi fb (skeleton u))).1
      = .ok ⟨false, applyUmask filePerm u, 0⟩ := by
  have z : ("" : String).utf8ByteSize = 0 := by decide
  refine ⟨?_, ?_, ?_, ?_, ?_, ?_⟩
  · rw [Stat_under _ _ m u fi fb es _ ne_got sp_got hl hs]
    simp [walk, skeleton, Node.info]
  · rw [Stat_under _ _ m u fi fb es _ ne_objects sp_objects hl hs]
    simp [walk, skeleton, Node.info, hd, List.lookup]
  · rw [Stat_under _ _ m u fi fb es _ ne_refs sp_refs hl hs]
    simp [walk, skeleton, Node.info, hd, List.lookup]
  · rw [Stat_under _ _ m u fi fb es _ ne_heads sp_heads hl hs]
    simp [walk, skeleton, Node.info, hd, List.lookup]
  · rw [Stat_under _ _ m u fi fb es _ ne_head sp_head hl hs]
    simp [walk, skeleton, Node.info, hd, List.lookup, headContent_size]
  · rw [Stat_under _ _ m u fi fb es _ ne_index sp_index hl hs]
    simp [walk, skeleton, Node.info, hd, List.lookup, z]

/-! ## What a failed step leaves -/

theorem Mkdir_fails_state (name : String) (perm : Nat) (s s' : FS) (e : GoError)
    (h : Posix.Mkdir name perm s = (some e, s')) : s' = s := by
  unfold Posix.Mkdir at h
  split at h
  · exact (Prod.mk.inj h).2.symm
  · split at h
    · exact (Prod.mk.inj h).2.symm
    · split at h
      · exact (Prod.mk.inj h).2.symm
      · split at h
        · exact (Prod.mk.inj h).2.symm
        · cases (Prod.mk.inj h).1

theorem openCreateTrunc_fails_state (name : String) (perm : Nat) (s s' : FS) (e : GoError)
    (h : Posix.openCreateTrunc name perm s = (some e, s')) : s' = s := by
  unfold Posix.openCreateTrunc at h
  split at h
  · exact (Prod.mk.inj h).2.symm
  · split at h
    · split at h
      · exact (Prod.mk.inj h).2.symm
      · cases (Prod.mk.inj h).1
    · split at h
      · exact (Prod.mk.inj h).2.symm
      · split at h
        · exact (Prod.mk.inj h).2.symm
        · split at h
          · exact (Prod.mk.inj h).2.symm
          · cases (Prod.mk.inj h).1
    · exact (Prod.mk.inj h).2.symm

theorem write_fails_state (name data : String) (s s' : FS) (e : GoError)
    (h : Posix.write name data s = (some e, s')) : s' = s ∧ data ≠ "" := by
  unfold Posix.write at h
  split at h
  · cases (Prod.mk.inj h).1
  · rename_i hd
    split at h
    · split at h
      · exact ⟨(Prod.mk.inj h).2.symm, hd⟩
      · cases (Prod.mk.inj h).1
    · exact ⟨(Prod.mk.inj h).2.symm, hd⟩

/-- A failed `os.WriteFile` left the state as it was, or as the opening of the
file left it when it was the write that failed; of no bytes, no write fails. -/
theorem WriteFile_fails_state (name data : String) (perm : Nat) (s s' : FS) (e : GoError)
    (h : Posix.WriteFile name data perm s = (some e, s')) :
    s' = s ∨ (data ≠ "" ∧ (Posix.openCreateTrunc name perm s).1 = none ∧
      s' = (Posix.openCreateTrunc name perm s).2) := by
  unfold Posix.WriteFile at h
  rcases ho : Posix.openCreateTrunc name perm s with ⟨_ | err, t⟩
  · rw [ho] at h
    simp only at h
    obtain ⟨h1, h2⟩ := write_fails_state name data t s' e h
    exact Or.inr ⟨h2, rfl, h1⟩
  · rw [ho] at h
    simp only [Prod.mk.injEq] at h
    left
    rw [← h.2]
    exact openCreateTrunc_fails_state name perm s t err ho

theorem keeps_isFile (s t : FS) (h : s.cwd.keeps t.cwd) (name : String) :
    s.isFile name = true → t.isFile name = true := by
  intro hx
  simp only [FS.isFile] at hx ⊢
  cases hn : nodeAt s.cwd (splitPath name) with
  | none => simp [hn] at hx
  | some x =>
    cases x with
    | dir m es => simp [hn] at hx
    | file m d =>
      obtain ⟨y, hy, hyd⟩ := h _ _ hn
      rw [hy]
      cases y with
      | dir m2 es2 => simp [Node.info] at hyd
      | file m2 d2 => rfl

/-- The state the first two creation steps leave when both succeed. -/
theorem after_two_steps (s0 : FS)
    (h : callsSucceed posix (creationCalls.take 2) s0 = true) :
    ∃ m es fi, es.lookup ".got" = none ∧ maySearch m = true ∧
      maySearch (applyUmask dirPerm s0.umask) = true ∧
      mayWrite (applyUmask dirPerm s0.umask) = true ∧
      afterCalls posix (creationCalls.take 2) s0 =
        underGot m es s0.umask fi s0.freeBytes
          (.dir (applyUmask dirPerm s0.umask) [("objects", .dir (applyUmask dirPerm s0.umask) [])]) := by
  obtain ⟨cwd, u, fi, fb⟩ := s0
  have e1 : creationCalls.take 2 = [.mkdir ".got" dirPerm, .mkdir ".got/objects" dirPerm] := by
    decide
  rw [e1] at h ⊢
  simp only [callsSucceed, afterCalls, Sys.exec, posix, Bool.and_true, Bool.and_eq_true,
    Option.isNone_iff_eq_none] at h ⊢
  cases cwd with
  | file m d =>
    exfalso
    have := h.1
    simp [Posix.Mkdir, ne_got, sp_got, modifyAt, createIn] at this
  | dir m es =>
    rw [Mkdir_got_eval] at h ⊢
    by_cases hs : maySearch m = true
    swap
    · simp [hs] at h
    cases hl : es.lookup ".got" with
    | some n => simp [hs, hl] at h
    | none =>
      by_cases hw : mayWrite m = true
      swap
      · simp [hs, hl, hw] at h
      by_cases h0 : fi = 0
      · simp [hs, hl, hw, h0] at h
      simp only [hs, hl, hw, h0, if_true, if_false, true_and] at h ⊢
      rw [Mkdir_objects_eval m u (fi - 1) fb _ es hl hs] at h ⊢
      by_cases hd : maySearch (applyUmask dirPerm u) = true ∧ mayWrite (applyUmask dirPerm u) = true
      swap
      · simp [hd] at h
      by_cases h1 : fi - 1 = 0
      · simp [hd, h1] at h
      simp only [if_pos hd, if_neg h1]
      exact ⟨m, es, fi - 1 - 1, hl, hs, hd.1, hd.2, rfl⟩

/-- A failed third step left the state of the first two steps, or that state with
the empty directory `.got/refs` added. -/
theorem MkdirAll_heads_fails_state (s0 sk : FS) (e : GoError)
    (h : callsSucceed posix (creationCalls.take 2) s0 = true)
    (hf : Posix.MkdirAll ".got/refs/heads" dirPerm (afterCalls posix (creationCalls.take 2) s0)
      = (some e, sk)) :
    sk = afterCalls posix (creationCalls.take 2) s0 ∨
    ((afterCalls posix (creationCalls.take 2) s0).exists ".got/refs" = false ∧
      sk = (Posix.Mkdir ".got/refs" dirPerm (afterCalls posix (creationCalls.take 2) s0)).2 ∧
      sk.readDir ".got/refs" = some []) := by
  obtain ⟨m, es, fi, hl, hs, hds, hdw, hA⟩ := after_two_steps s0 h
  rw [hA] at hf ⊢
  rw [MkdirAll_heads_eval m s0.umask fi s0.freeBytes _ es _ hl hs hds hdw rfl] at hf
  have hmk : Posix.Mkdir ".got/refs" dirPerm (underGot m es s0.umask fi s0.freeBytes
      (.dir (applyUmask dirPerm s0.umask) [("objects", .dir (applyUmask dirPerm s0.umask) [])]))
      = if fi = 0 then (some (.pathError "mkdir" ".got/refs" .ENOSPC),
          underGot m es s0.umask fi s0.freeBytes
            (.dir (applyUmask dirPerm s0.umask) [("objects", .dir (applyUmask dirPerm s0.umask) [])]))
        else (none, underGot m es s0.umask (fi - 1) s0.freeBytes
          (.dir (applyUmask dirPerm s0.umask)
            [("objects", .dir (applyUmask dirPerm s0.umask) []),
             ("refs", .dir (applyUmask dirPerm s0.umask) [])])) := by
    rw [Mkdir_under ".got/refs" "refs" [] dirPerm m s0.umask fi s0.freeBytes es _ ne_refs sp_refs
      hl hs]
    simp [modifyAt, createIn, hds, hdw, List.lookup]
  by_cases h0 : fi = 0
  · rw [if_pos h0] at hf
    exact Or.inl (Prod.mk.inj hf).2.symm
  · rw [if_neg h0] at hf
    by_cases h1 : fi - 1 = 0
    · rw [if_pos h1] at hf
      right
      rw [hmk, if_neg h0, ← (Prod.mk.inj hf).2]
      refine ⟨?_, rfl, ?_⟩
      · simp only [FS.exists, sp_refs]
        simp only [nodeAt_underGot _ _ _ _ _ _ _ hl]
        simp [nodeAt, List.lookup]
      · simp only [FS.readDir, sp_refs]
        simp only [nodeAt_underGot _ _ _ _ _ _ _ hl]
        simp [nodeAt, List.lookup]
    · rw [if_neg h1] at hf
      cases (Prod.mk.inj hf).1

/-- The state the first three creation steps leave when all succeed. -/
theorem after_three_steps (s0 : FS)
    (h : callsSucceed posix (creationCalls.take 3) s0 = true) :
    ∃ m es fi, es.lookup ".got" = none ∧ maySearch m = true ∧
      maySearch (applyUmask dirPerm s0.umask) = true ∧
      mayWrite (applyUmask dirPerm s0.umask) = true ∧
      afterCalls posix (creationCalls.take 3) s0 =
        underGot m es s0.umask fi s0.freeBytes
          (.dir (applyUmask dirPerm s0.umask)
            [("objects", .dir (applyUmask dirPerm s0.umask) []),
             ("refs", .dir (applyUmask dirPerm s0.umask)
                [("heads", .dir (applyUmask dirPerm s0.umask) [])])]) := by
  have e3 : creationCalls.take 3 = creationCalls.take 2 ++ [.mkdirAll ".got/refs/heads" dirPerm] := by
    decide
  have split1 : ∀ (cs : List Call) (c : Call) (s : FS),
      callsSucceed posix (cs ++ [c]) s =
        (callsSucceed posix cs s && (posix.exec c (afterCalls posix cs s)).1.isNone) ∧
      afterCalls posix (cs ++ [c]) s = (posix.exec c (afterCalls posix cs s)).2 := by
    intro cs
    induction cs with
    | nil => intro c s; simp [callsSucceed, afterCalls]
    | cons d rest ih =>
      intro c s
      have hi := ih c (posix.exec d s).2
      constructor
      · show ((posix.exec d s).1.isNone && callsSucceed posix (rest ++ [c]) (posix.exec d s).2) = _
        rw [hi.1, callsSucceed, Bool.and_assoc]
        rfl
      · show afterCalls posix (rest ++ [c]) (posix.exec d s).2 = _
        rw [hi.2, afterCalls]
  rw [e3, (split1 _ _ _).1, Bool.and_eq_true] at h
  rw [e3, (split1 _ _ _).2]
  obtain ⟨h2, h3⟩ := h
  obtain ⟨m, es, fi, hl, hs, hds, hdw, hA⟩ := after_two_steps s0 h2
  rw [hA] at h3 ⊢
  simp only [Sys.exec, posix] at h3 ⊢
  rw [MkdirAll_heads_eval m s0.umask fi s0.freeBytes _ es _ hl hs hds hdw rfl] at h3 ⊢
  by_cases h0 : fi = 0
  · simp [h0] at h3
  by_cases h1 : fi - 1 = 0
  · simp [h0, h1] at h3
  simp only [if_neg h0, if_neg h1]
  exact ⟨m, es, fi - 1 - 1, hl, hs, hds, hdw, rfl⟩

/-- A failed fourth step left the state of the first three steps, or that state
with the empty file `.got/HEAD` added. -/
theorem WriteFile_HEAD_fails_state (s0 sk : FS) (e : GoError)
    (h : callsSucceed posix (creationCalls.take 3) s0 = true)
    (hf : Posix.WriteFile ".got/HEAD" "ref: refs/heads/main" filePerm
      (afterCalls posix (creationCalls.take 3) s0) = (some e, sk)) :
    sk = afterCalls posix (creationCalls.take 3) s0 ∨
    ((afterCalls posix (creationCalls.take 3) s0).exists ".got/HEAD" = false ∧
      sk = (Posix.openCreateTrunc ".got/HEAD" filePerm
        (afterCalls posix (creationCalls.take 3) s0)).2 ∧
      nodeAt sk.cwd (splitPath ".got/HEAD") = some (.file (applyUmask filePerm s0.umask) "")) := by
  have hcase := WriteFile_fails_state _ _ _ _ _ _ hf
  obtain ⟨m, es, fi, hl, hs, hds, hdw, hA⟩ := after_three_steps s0 h
  rw [hA] at hf hcase ⊢
  rw [WriteFile_under_new ".got/HEAD" "HEAD" _ filePerm m s0.umask fi s0.freeBytes _ es _ ne_head
    sp_head hl hs hds hdw (by simp [List.lookup])] at hf
  have hno : (underGot m es s0.umask fi s0.freeBytes
      (.dir (applyUmask dirPerm s0.umask)
        [("objects", .dir (applyUmask dirPerm s0.umask) []),
         ("refs", .dir (applyUmask dirPerm s0.umask)
            [("heads", .dir (applyUmask dirPerm s0.umask) [])])])).exists ".got/HEAD" = false := by
    simp only [FS.exists, sp_head]
    simp only [nodeAt_underGot _ _ _ _ _ _ _ hl]
    simp [nodeAt, List.lookup]
  by_cases h0 : fi = 0
  · rw [if_pos h0] at hf
    exact Or.inl (Prod.mk.inj hf).2.symm
  · rw [if_neg h0, if_neg headContent_ne, headContent_size] at hf
    by_cases hb : 20 ≤ s0.freeBytes
    · rw [if_pos hb] at hf
      cases (Prod.mk.inj hf).1
    · rw [if_neg hb] at hf
      have hsk := (Prod.mk.inj hf).2
      have hnode : nodeAt sk.cwd (splitPath ".got/HEAD")
          = some (.file (applyUmask filePerm s0.umask) "") := by
        rw [← hsk]
        simp only [sp_head]
        simp only [nodeAt_underGot _ _ _ _ _ _ _ hl]
        simp [nodeAt, List.lookup]
      right
      refine ⟨hno, ?_, hnode⟩
      rcases hcase with h1 | ⟨-, -, h1⟩
      · exfalso
        rw [h1] at hnode
        have : (underGot m es s0.umask fi s0.freeBytes
          (.dir (applyUmask dirPerm s0.umask)
            [("objects", .dir (applyUmask dirPerm s0.umask) []),
             ("refs", .dir (applyUmask dirPerm s0.umask)
                [("heads", .dir (applyUmask dirPerm s0.umask) [])])])).exists ".got/HEAD" = true := by
          simp only [FS.exists, hnode, Option.isSome_some]
        rw [hno] at this
        cases this
      · exact h1

/-- What `os.ReadFile` by the caller yields of `HEAD` once the skeleton is there. -/
theorem ReadFile_HEAD_skeleton (m u fi fb : Nat) (es : List (String × Node))
    (hl : es.lookup ".got" = none) (hs : maySearch m = true)
    (hd : maySearch (applyUmask dirPerm u) = true)
    (hr : mayRead (applyUmask filePerm u) = true) :
    Posix.ReadFile ".got/HEAD" (underGot m es u fi fb (skeleton u)) = .ok "ref: refs/heads/main" := by
  simp only [Posix.ReadFile, ne_head, if_false, sp_head, underGot]
  rw [walk_under m es ".got" _ _ hl hs]
  simp [walk, skeleton, hd, hr, List.lookup]

/-! ## The claims -/

/-- C1 (amended). For every state in which `.got` does not exist, whenever a first
call to `Initialize` succeeds, a second call in the resulting state returns the error
"repository already initialized" and leaves that state as it is, whatever the first
call created.  (The first call itself may fail.) -/
theorem Initialize_twice (s : FS) (_h : s.exists gotDir = false)
    (h1 : (Initialize posix s).1 = none) :
    Initialize posix (Initialize posix s).2 =
      (some (Errorf "repository already initialized"), (Initialize posix s).2) := by
  obtain ⟨m, es, -, hl, a1, -, -, -, -, -, hs'⟩ :=
    Initialize_posix_success s _ (Initialize_result posix s none h1)
  rw [hs']
  exact Initialize_underGot m _ _ _ es _ hl a1

theorem Initialize_twice_witness :
    freshDir.exists gotDir = false ∧ (Initialize posix freshDir).1 = none ∧
    Initialize posix (Initialize posix freshDir).2 =
      (some (Errorf "repository already initialized"), (Initialize posix freshDir).2) :=
  ⟨by decide, by decide, Initialize_twice freshDir (by decide) (by decide)⟩

/-- C1 as stated fails: `.got` does not exist in a read-only working directory, and
the first call to `Initialize` there does not succeed. -/
theorem Initialize_fails_in_readOnlyDir :
    readOnlyDir.exists gotDir = false ∧
    (Initialize posix readOnlyDir).1 =
      some (ErrorfW "failed to create .got directory: "
        (.pathError "mkdir" ".got" .EACCES)) := by
  decide

/-- C2 (amended). For every state in which `.got` exists, whatever its type, and the
caller may search the working directory (so that `os.Stat` succeeds), `Initialize`
returns the error "repository already initialized" and the state after the call is
the state before it. -/
theorem Initialize_guard (s : FS) (h : s.exists gotDir = true) (hs : s.cwdSearchable = true) :
    Initialize posix s = (some (Errorf "repository already initialized"), s) := by
  obtain ⟨cwd, u, fi, fb⟩ := s
  cases cwd with
  | file m d => simp [FS.cwdSearchable] at hs
  | dir m es =>
    rw [exists_gotDir] at h
    simp only [FS.cwdSearchable] at hs
    cases hl : es.lookup ".got" with
    | none => simp [hl] at h
    | some n => exact Initialize_posix_present m u fi fb es n hl hs

theorem Initialize_guard_witness :
    Initialize posix (Initialize posix freshDir).2 =
      (some (Errorf "repository already initialized"), (Initialize posix freshDir).2) :=
  Initialize_guard (Initialize posix freshDir).2 (by decide) (by decide)

/-- C2 as stated fails: `.got` exists (a complete repository) in a working directory
the caller may not search, and `Initialize` returns the error of the directory
creation, not "repository already initialized". -/
theorem Initialize_in_lockedRepository :
    lockedRepository.exists gotDir = true ∧
    (Initialize posix lockedRepository).1 =
      some (ErrorfW "failed to create .got directory: "
        (.pathError "mkdir" ".got" .EACCES)) ∧
    (Initialize posix lockedRepository).1 ≠ some (Errorf "repository already initialized") := by
  decide

/-- C3. After a successful `Initialize` the paths `.got`, `.got/objects`, `.got/refs`
and `.got/refs/heads` exist and are directories, in the resulting state and as
`os.Stat` reports them to the caller. -/
theorem Initialize_layout (s s' : FS) (h : Initialize posix s = (none, s')) :
    (s'.isDir gotDir = true ∧
      s'.isDir (filepathJoin [gotDir, objectsDir]) = true ∧
      s'.isDir (filepathJoin [gotDir, refsDir]) = true ∧
      s'.isDir (filepathJoin [gotDir, refsDir, headsDir]) = true) ∧
    (∀ name ∈ [gotDir, filepathJoin [gotDir, objectsDir], filepathJoin [gotDir, refsDir],
        filepathJoin [gotDir, refsDir, headsDir]],
      ∃ info, (posix.Stat name s').1 = .ok info ∧ info.isDir = true) := by
  obtain ⟨m, es, -, hl, hs, -, hd, -, -, -, hs'⟩ := Initialize_posix_success s s' h
  have p : filepathJoin [gotDir, refsDir] = ".got/refs" := by decide
  subst hs'
  constructor
  · simp only [FS.isDir, path_objects, p, path_heads]
    simp only [gotDir_eq, sp_got, sp_objects, sp_refs, sp_heads]
    simp only [nodeAt_underGot _ _ _ _ _ _ _ hl]
    simp [nodeAt, skeleton, List.lookup]
  · obtain ⟨t1, t2, t3, t4, -, -⟩ :=
      Stat_skeleton m s.umask (s.freeInodes - 6) (s.freeBytes - 20) es hl hs hd
    intro name hn
    simp only [path_objects, p, path_heads, gotDir_eq, List.mem_cons, List.mem_singleton,
      List.not_mem_nil, or_false] at hn
    rcases hn with rfl | rfl | rfl | rfl
    · exact ⟨_, t1, rfl⟩
    · exact ⟨_, t2, rfl⟩
    · exact ⟨_, t3, rfl⟩
    · exact ⟨_, t4, rfl⟩

theorem Initialize_layout_witness :
    (Initialize posix freshDir).2.isDir ".got" = true ∧
    (Initialize posix freshDir).2.isDir ".got/objects" = true ∧
    (Initialize posix freshDir).2.isDir ".got/refs" = true ∧
    (Initialize posix freshDir).2.isDir ".got/refs/heads" = true :=
  (Initialize_layout freshDir _ (Initialize_result posix freshDir none (by decide))).1

/-- C4 (amended). After a successful `Initialize` the file `.got/HEAD` holds exactly
the string `ref: refs/heads/main`, twenty bytes, none of them a newline, as a regular
file of mode 0644 less the umask; `os.Stat` reports a regular file of size 20; and
`os.ReadFile` by the caller yields exactly that string whenever that mode leaves the
owner the read permission. -/
theorem Initialize_HEAD (s s' : FS) (h : Initialize posix s = (none, s')) :
    nodeAt s'.cwd (splitPath (filepathJoin [gotDir, headFile])) =
      some (.file (applyUmask filePerm s.umask) "ref: refs/heads/main") ∧
    ("ref: " ++ mainBranch) = "ref: refs/heads/main" ∧
    ("ref: " ++ mainBranch).utf8ByteSize = 20 ∧
    ("ref: " ++ mainBranch).toList.contains (Char.ofNat 10) = false ∧
    (∃ info, (posix.Stat (filepathJoin [gotDir, headFile]) s').1 = .ok info ∧
      info.isDir = false ∧ info.size = 20) ∧
    (mayRead (applyUmask filePerm s.umask) = true →
      Posix.ReadFile (filepathJoin [gotDir, headFile]) s' = .ok "ref: refs/heads/main") := by
  obtain ⟨m, es, -, hl, hs, -, hd, -, -, -, hs'⟩ := Initialize_posix_success s s' h
  subst hs'
  refine ⟨?_, by decide, by decide, by decide, ?_, ?_⟩
  · simp only [path_head, sp_head]
    simp only [nodeAt_underGot _ _ _ _ _ _ _ hl]
    simp [nodeAt, skeleton, List.lookup]
  · rw [path_head]
    exact ⟨_, (Stat_skeleton m s.umask (s.freeInodes - 6) (s.freeBytes - 20) es hl hs hd).2.2.2.2.1,
      rfl, rfl⟩
  · intro hr
    rw [path_head]
    exact ReadFile_HEAD_skeleton m s.umask _ _ es hl hs hd hr

theorem Initialize_HEAD_witness :
    (Initialize posix freshDir).1 = none ∧
    Posix.ReadFile ".got/HEAD" (Initialize posix freshDir).2 = .ok "ref: refs/heads/main" :=
  ⟨by decide,
   (Initialize_HEAD freshDir _ (Initialize_result posix freshDir none (by decide))).2.2.2.2.2
     (by decide)⟩

/-- C4 as stated fails: under the umask 0400 `Initialize` succeeds and creates
`.got/HEAD` with mode 0244, and reading it back fails with "permission denied"
instead of yielding the string. -/
theorem ReadFile_HEAD_ownerReadMasked :
    (Initialize posix ownerReadMasked).1 = none ∧
    (Initialize posix ownerReadMasked).2.modeOf ".got/HEAD" = some 0o244 ∧
    Posix.ReadFile ".got/HEAD" (Initialize posix ownerReadMasked).2 =
      .error (.pathError "open" ".got/HEAD" .EACCES) ∧
    Posix.ReadFile ".got/HEAD" (Initialize posix ownerReadMasked).2 ≠
      .ok "ref: refs/heads/main" := by
  have h : Posix.ReadFile ".got/HEAD" (Initialize posix ownerReadMasked).2 =
      .error (.pathError "open" ".got/HEAD" .EACCES) := by rfl
  refine ⟨by decide, by decide, h, ?_⟩
  rw [h]
  exact fun hc => Except.noConfusion hc

/-- C5. After a successful `Initialize` the file `.got/index` exists and is zero
bytes long, in the resulting state (a regular file of mode 0644 less the umask with
no content) and as `os.Stat` reports it to the caller. -/
theorem Initialize_index (s s' : FS) (h : Initialize posix s = (none, s')) :
    s'.exists (filepathJoin [gotDir, indexFile]) = true ∧
    nodeAt s'.cwd (splitPath (filepathJoin [gotDir, indexFile])) =
      some (.file (applyUmask filePerm s.umask) "") ∧
    ("" : String).utf8ByteSize = 0 ∧
    (∃ info, (posix.Stat (filepathJoin [gotDir, indexFile]) s').1 = .ok info ∧
      info.isDir = false ∧ info.size = 0) := by
  obtain ⟨m, es, -, hl, hs, -, hd, -, -, -, hs'⟩ := Initialize_posix_success s s' h
  subst hs'
  refine ⟨?_, ?_, by decide, ?_⟩
  · simp only [FS.exists, path_index, sp_index]
    simp only [nodeAt_underGot _ _ _ _ _ _ _ hl]
    simp [nodeAt, skeleton, List.lookup]
  · simp only [path_index, sp_index]
    simp only [nodeAt_underGot _ _ _ _ _ _ _ hl]
    simp [nodeAt, skeleton, List.lookup]
  · rw [path_index]
    exact ⟨_, (Stat_skeleton m s.umask (s.freeInodes - 6) (s.freeBytes - 20) es hl hs hd).2.2.2.2.2,
      rfl, rfl⟩

theorem Initialize_index_witness :
    (Initialize posix freshDir).2.exists ".got/index" = true ∧
    nodeAt (Initialize posix freshDir).2.cwd (splitPath ".got/index") = some (.file 0o644 "") :=
  ⟨(Initialize_index freshDir _ (Initialize_result posix freshDir none (by decide))).1,
   (Initialize_index freshDir _ (Initialize_result posix freshDir none (by decide))).2.1⟩

/-- C6 (amended). The five creation steps run in the fixed order `.got`, objects,
refs/heads, HEAD, index, and `Initialize` stops at the first that fails: for every
system and state that passes the existence check and every step, if the steps before
it succeed and it fails, `Initialize` returns an error, the calls made are the
existence check and the creation calls up to the failed one and no other (later steps
are not attempted, nothing is removed), and the resulting state is the one the failed
call left.  On the POSIX instance that state is exactly the state left by the
successful steps when the failed step is `.got`, objects or index; when it is
refs/heads it is that state, or that state with the empty directory `.got/refs`
added; when it is HEAD it is that state, or that state with the empty file
`.got/HEAD` added.  In every case each node of the initial state and of the state
left by the successful steps is still there, a directory as a directory and a
regular file as a regular file. -/
theorem Initialize_stops_at_first_failure :
    (∀ (σ : Type) (os : Sys σ) (s s0 sk : σ) (e0 e : GoError) (k : Nat) (c : Call),
      os.Stat gotDir s = (.error e0, s0) →
      callsSucceed os (creationCalls.take k) s0 = true →
      creationCalls[k]? = some c →
      os.exec c (afterCalls os (creationCalls.take k) s0) = (some e, sk) →
        (Initialize os s).1.isSome = true ∧
        (Initialize os s).2 = sk ∧
        (Initialize (traced os) ([], s)).2.1 = Call.stat gotDir :: creationCalls.take (k + 1)) ∧
    (∀ (s s0 sk : FS) (e0 e : GoError) (k : Nat) (c : Call),
      posix.Stat gotDir s = (.error e0, s0) →
      callsSucceed posix (creationCalls.take k) s0 = true →
      creationCalls[k]? = some c →
      posix.exec c (afterCalls posix (creationCalls.take k) s0) = (some e, sk) →
        (k = 0 ∨ k = 1 ∨ k = 4 →
          (Initialize posix s).2 = afterCalls posix (creationCalls.take k) s0) ∧
        (k = 2 →
          (Initialize posix s).2 = afterCalls posix (creationCalls.take k) s0 ∨
          ((afterCalls posix (creationCalls.take k) s0).exists ".got/refs" = false ∧
            (Initialize posix s).2 =
              (Posix.Mkdir ".got/refs" dirPerm (afterCalls posix (creationCalls.take k) s0)).2 ∧
            (Initialize posix s).2.readDir ".got/refs" = some [])) ∧
        (k = 3 →
          (Initialize posix s).2 = afterCalls posix (creationCalls.take k) s0 ∨
          ((afterCalls posix (creationCalls.take k) s0).exists ".got/HEAD" = false ∧
            (Initialize posix s).2 =
              (Posix.openCreateTrunc ".got/HEAD" filePerm
                (afterCalls posix (creationCalls.take k) s0)).2 ∧
            nodeAt (Initialize posix s).2.cwd (splitPath ".got/HEAD") =
              some (.file (applyUmask filePerm s.umask) ""))) ∧
        (∀ name : String,
          ((afterCalls posix (creationCalls.take k) s0).exists name = true →
            (Initialize posix s).2.exists name = true) ∧
          ((afterCalls posix (creationCalls.take k) s0).isDir name = true →
            (Initialize posix s).2.isDir name = true) ∧
          ((afterCalls posix (creationCalls.take k) s0).isFile name = true →
            (Initialize posix s).2.isFile name = true) ∧
          (s.exists name = true → (Initialize posix s).2.exists name = true) ∧
          (s.isDir name = true → (Initialize posix s).2.isDir name = true) ∧
          (s.isFile name = true → (Initialize posix s).2.isFile name = true))) := by
  constructor
  · intro σ os s s0 sk e0 e k c hguard hprev hc hfail
    obtain ⟨pfx, -, h1, h2⟩ := Initialize_fails_at os s s0 sk e0 e k c hguard hprev hc hfail
    exact ⟨by rw [h1]; rfl, by rw [h1], by rw [h2]⟩
  · intro s s0 sk e0 e k c hguard hprev hc hfail
    obtain ⟨pfx, -, h1, -⟩ := Initialize_fails_at posix s s0 sk e0 e k c hguard hprev hc hfail
    rw [h1]
    have hs0 : s0 = s := by
      have := Stat_state gotDir s
      have hg : Posix.Stat gotDir s = (.error e0, s0) := hguard
      rw [hg] at this
      exact this
    subst hs0
    have k1 : (afterCalls posix (creationCalls.take k) s0).cwd.keeps sk.cwd := by
      have := exec_keeps c (afterCalls posix (creationCalls.take k) s0)
      rw [hfail] at this
      exact this
    have k2 : s0.cwd.keeps sk.cwd := keeps_trans (afterCalls_keeps _ s0) k1
    refine ⟨?_, ?_, ?_, fun name => ⟨(keeps_exists _ _ k1 name).1, (keeps_exists _ _ k1 name).2,
      keeps_isFile _ _ k1 name, (keeps_exists _ _ k2 name).1, (keeps_exists _ _ k2 name).2,
      keeps_isFile _ _ k2 name⟩⟩
    · rintro (rfl | rfl | rfl)
      · have hc' : c = .mkdir gotDir dirPerm := by
          have : creationCalls[0]? = some (.mkdir gotDir dirPerm) := rfl
          rw [this] at hc
          exact (Option.some.inj hc).symm
        subst hc'
        exact Mkdir_fails_state gotDir dirPerm _ sk e hfail
      · have hc' : c = .mkdir (filepathJoin [gotDir, objectsDir]) dirPerm := by
          have : creationCalls[1]? = some (.mkdir (filepathJoin [gotDir, objectsDir]) dirPerm) :=
            rfl
          rw [this] at hc
          exact (Option.some.inj hc).symm
        subst hc'
        exact Mkdir_fails_state (filepathJoin [gotDir, objectsDir]) dirPerm _ sk e hfail
      · have hc' : c = .writeFile (filepathJoin [gotDir, indexFile]) "" filePerm := by
          have : creationCalls[4]? =
              some (.writeFile (filepathJoin [gotDir, indexFile]) "" filePerm) := rfl
          rw [this] at hc
          exact (Option.some.inj hc).symm
        subst hc'
        rcases WriteFile_fails_state (filepathJoin [gotDir, indexFile]) "" filePerm _ sk e hfail
          with h | ⟨h, -, -⟩
        · exact h
        · exact absurd rfl h
    · rintro rfl
      have hc' : c = .mkdirAll ".got/refs/heads" dirPerm := by
        have : creationCalls[2]? = some (.mkdirAll ".got/refs/heads" dirPerm) := by decide
        rw [this] at hc
        exact (Option.some.inj hc).symm
      subst hc'
      exact MkdirAll_heads_fails_state s0 sk e hprev hfail
    · rintro rfl
      have hc' : c = .writeFile ".got/HEAD" "ref: refs/heads/main" filePerm := by
        have : creationCalls[3]? = some (.writeFile ".got/HEAD" "ref: refs/heads/main" filePerm) := by
          decide
        rw [this] at hc
        exact (Option.some.inj hc).symm
      subst hc'
      exact WriteFile_HEAD_fails_state s0 sk e hprev hfail

theorem Initialize_stops_at_first_failure_witness :
    ((Initialize posix threeInodes).1.isSome = true ∧
      (Initialize (traced posix) ([], threeInodes)).2.1 =
        [.stat ".got", .mkdir ".got" 0o755, .mkdir ".got/objects" 0o755,
          .mkdirAll ".got/refs/heads" 0o755]) ∧
    ((Initialize posix threeInodes).2.isDir ".got/objects" = true) ∧
    ((Initialize posix threeInodes).2 = afterCalls posix (creationCalls.take 2) threeInodes ∨
      ((afterCalls posix (creationCalls.take 2) threeInodes).exists ".got/refs" = false ∧
        (Initialize posix threeInodes).2 =
          (Posix.Mkdir ".got/refs" dirPerm
            (afterCalls posix (creationCalls.take 2) threeInodes)).2 ∧
        (Initialize posix threeInodes).2.readDir ".got/refs" = some [])) := by
  have hg : posix.Stat gotDir threeInodes
      = (.error (.pathError "stat" ".got" .ENOENT), threeInodes) := rfl
  have hp : callsSucceed posix (creationCalls.take 2) threeInodes = true := by decide
  have hc : creationCalls[2]? = some (.mkdirAll ".got/refs/heads" 0o755) := by decide
  have hf : posix.exec (.mkdirAll ".got/refs/heads" 0o755)
      (afterCalls posix (creationCalls.take 2) threeInodes)
      = (some (.pathError "mkdir" ".got/refs/heads" .ENOSPC),
          (posix.exec (.mkdirAll ".got/refs/heads" 0o755)
            (afterCalls posix (creationCalls.take 2) threeInodes)).2) :=
    Prod.ext (by decide) rfl
  have h1 := Initialize_stops_at_first_failure.1 FS posix threeInodes threeInodes _ _ _ 2 _
    hg hp hc hf
  have h2 := Initialize_stops_at_first_failure.2 threeInodes threeInodes _ _ _ 2 _ hg hp hc hf
  exact ⟨⟨h1.1, by rw [h1.2.2]; decide⟩, (h2.2.2.2 ".got/objects").2.1 (by decide), h2.2.1 rfl⟩

/-- C6 as stated fails: with three free inodes the steps `.got` and objects succeed
and step refs/heads fails, yet `.got/refs`, absent from the state those two steps
left, exists in the resulting state: the failed `os.MkdirAll` had created it. -/
theorem Initialize_threeInodes_leaves_refs :
    (posix.exec (.stat gotDir) threeInodes).1.isSome = true ∧
    callsSucceed posix (creationCalls.take 2) threeInodes = true ∧
    (posix.exec (.mkdirAll (filepathJoin [gotDir, refsDir, headsDir]) dirPerm)
      (afterCalls posix (creationCalls.take 2) threeInodes)).1.isSome = true ∧
    (Initialize posix threeInodes).1.isSome = true ∧
    (afterCalls posix (creationCalls.take 2) threeInodes).exists ".got/refs" = false ∧
    (Initialize posix threeInodes).2.exists ".got/refs" = true ∧
    (Initialize posix threeInodes).2 ≠ afterCalls posix (creationCalls.take 2) threeInodes := by
  refine ⟨by decide, by decide, by decide, by decide, by decide, by decide, ?_⟩
  intro h
  have h1 : (Initialize posix threeInodes).2.exists ".got/refs" = true := by decide
  rw [h] at h1
  revert h1
  decide

/-- C7. The error of `Initialize` names the failed step and wraps its cause: when the
existence check reports `.got` absent, the steps before `k` succeed and step `k`
fails with cause `e`, the result is the error whose message is that step's prefix
followed by the message of `e` and whose wrapped error is `e`; it is never the
"repository already initialized" error, whatever the cause, an "already exists"
cause of the first step included.  The five prefixes are pairwise distinct and none
is the "repository already initialized" message. -/
theorem Initialize_error_names_step {σ : Type} (os : Sys σ) (s s0 sk : σ)
    (e0 e : GoError) (k : Nat) (c : Call)
    (hguard : os.Stat gotDir s = (.error e0, s0))
    (hprev : callsSucceed os (creationCalls.take k) s0 = true)
    (hc : creationCalls[k]? = some c)
    (hfail : os.exec c (afterCalls os (creationCalls.take k) s0) = (some e, sk)) :
    (∃ pfx err, stepMessages[k]? = some pfx ∧ (Initialize os s).1 = some err ∧
      err.Error = pfx ++ e.Error ∧ err.Unwrap = some e ∧
      err ≠ Errorf "repository already initialized") ∧
    (k = 0 → e = .pathError "mkdir" gotDir .EEXIST →
      (Initialize os s).1 = some (.wrapError
        "failed to create .got directory: mkdir .got: file exists"
        (.pathError "mkdir" ".got" .EEXIST))) ∧
    stepMessages = [ "failed to create .got directory: ", "failed to create objects directory: ",
      "failed to create refs/heads directory: ", "failed to create HEAD file: ",
      "failed to create index file: " ] ∧
    stepMessages.Nodup ∧
    "repository already initialized" ∉ stepMessages := by
  obtain ⟨pfx, hp, h1, -⟩ := Initialize_fails_at os s s0 sk e0 e k c hguard hprev hc hfail
  refine ⟨⟨pfx, ErrorfW pfx e, hp, by rw [h1], rfl, rfl, ?_⟩, ?_, rfl, by decide, by decide⟩
  · simp [ErrorfW, Errorf]
  · intro hk he
    subst hk he
    have : pfx = "failed to create .got directory: " := by
      have h0 : stepMessages[0]? = some "failed to create .got directory: " := rfl
      rw [h0] at hp
      exact (Option.some.inj hp).symm
    subst this
    rw [h1]
    show (some (ErrorfW "failed to create .got directory: "
      (GoError.pathError "mkdir" gotDir Errno.EEXIST)) : Option GoError) = _
    decide

theorem Initialize_error_names_step_witness :
    (Initialize raced freshDir).1 = some (.wrapError
        "failed to create .got directory: mkdir .got: file exists"
        (.pathError "mkdir" ".got" .EEXIST)) :=
  (Initialize_error_names_step raced freshDir (Posix.Mkdir gotDir dirPerm freshDir).2
    (Posix.Mkdir gotDir dirPerm freshDir).2
    (.pathError "stat" ".got" .ENOENT) (.pathError "mkdir" gotDir .EEXIST) 0
    (.mkdir gotDir dirPerm) rfl (by decide) (by decide) (Prod.ext (by decide) rfl)).2.1 rfl rfl

/-- C8. The dispatcher: with no argument it prints the usage text to standard output
and exits with 1; with a first argument other than `init` it prints
`Unknown command: <arg>` as a line to standard error, then the usage text, and exits
with 1; in both cases no call reaches the system and its state is unchanged; with
first argument `init` it runs `Initialize` once and, when that succeeds, prints the
line `Initialized empty got repository` to standard output and nothing else and exits
with 0, and when it fails prints the line `Error: <message>` to standard error and
nothing else and exits with 1; on the POSIX instance that message holds no newline. -/
theorem main_dispatch {σ : Type} (os : Sys σ) (args : List String) (s : σ) :
    (args.length < 2 →
      (main os args s).out = printUsage ∧
      written .stdout (main os args s).out = usageText ∧
      written .stderr (main os args s).out = "" ∧
      (main os args s).exitCode = 1 ∧
      (main os args s).sys = s ∧
      (main (traced os) args ([], s)).sys = ([], s)) ∧
    (∀ cmd, args[1]? = some cmd → cmd ≠ "init" →
      (main os args s).out = (Stream.stderr, "Unknown command: " ++ cmd ++ "\n") :: printUsage ∧
      written .stderr (main os args s).out = "Unknown command: " ++ cmd ++ "\n" ∧
      written .stdout (main os args s).out = usageText ∧
      (main os args s).exitCode = 1 ∧
      (main os args s).sys = s ∧
      (main (traced os) args ([], s)).sys = ([], s)) ∧
    (args[1]? = some "init" →
      (main os args s).sys = (Initialize os s).2 ∧
      (main (traced os) args ([], s)).sys = (Initialize (traced os) ([], s)).2 ∧
      ((Initialize os s).1 = none →
        (main os args s).out = [(Stream.stdout, "Initialized empty got repository\n")] ∧
        (main os args s).exitCode = 0) ∧
      (∀ err, (Initialize os s).1 = some err →
        (main os args s).out = [(Stream.stderr, "Error: " ++ err.Error ++ "\n")] ∧
        written .stdout (main os args s).out = "" ∧
        (main os args s).exitCode = 1)) ∧
    (∀ (t : FS) (err : GoError), (Initialize posix t).1 = some err →
      err.Error.toList.contains (Char.ofNat 10) = false) := by
  refine ⟨fun h => ?_, fun cmd hcmd hne => ?_, fun hinit => ?_, Initialize_posix_one_line⟩
  · have hm : ∀ (τ : Type) (o : Sys τ) (t : τ), main o args t = ⟨printUsage, 1, t⟩ := by
      intro τ o t
      simp only [main, h, if_true]
    rw [hm, hm]
    exact ⟨rfl, usage_written.1, usage_written.2, rfl, rfl, rfl⟩
  · have hlen : ¬ args.length < 2 := by
      intro hlt
      have : args[1]? = none := List.getElem?_eq_none (by omega)
      rw [this] at hcmd
      cases hcmd
    have hget : args.getD 1 "" = cmd := by
      rw [List.getD_eq_getElem?_getD, hcmd]; rfl
    have hm : ∀ (τ : Type) (o : Sys τ) (t : τ), main o args t =
        ⟨[(Stream.stderr, "Unknown command: " ++ cmd ++ "\n")] ++ printUsage, 1, t⟩ := by
      intro τ o t
      simp only [main, hlen, if_false, hget, hne]
    rw [hm, hm]
    refine ⟨rfl, ?_, ?_, rfl, rfl, rfl⟩
    · simp [written, printUsage, Println, String.join]
    · have := usage_written.1
      simpa [written] using this
  · have hlen : ¬ args.length < 2 := by
      intro hlt
      have : args[1]? = none := List.getElem?_eq_none (by omega)
      rw [this] at hinit
      cases hinit
    have hget : args.getD 1 "" = "init" := by
      rw [List.getD_eq_getElem?_getD, hinit]; rfl
    have hm : ∀ (τ : Type) (o : Sys τ) (t : τ), main o args t =
        match Initialize o t with
        | (some err, t) => ⟨[(Stream.stderr, "Error: " ++ err.Error ++ "\n")], 1, t⟩
        | (none, t) => ⟨[(Stream.stdout, "Initialized empty got repository\n")], 0, t⟩ := by
      intro τ o t
      simp only [main, hlen, if_false, hget, if_true, Init, Println]
      rcases Initialize o t with ⟨_ | err, t2⟩ <;> rfl
    rw [hm, hm]
    refine ⟨?_, ?_, ?_, ?_⟩
    · rcases Initialize os s with ⟨_ | err, t⟩ <;> rfl
    · rcases Initialize (traced os) ([], s) with ⟨_ | err, t⟩ <;> rfl
    · intro h
      rcases hi : Initialize os s with ⟨_ | err, t⟩
      · exact ⟨rfl, rfl⟩
      · rw [hi] at h; cases h
    · intro err h
      rcases hi : Initialize os s with ⟨_ | err2, t⟩
      · rw [hi] at h; cases h
      · rw [hi] at h
        cases h
        refine ⟨rfl, ?_, rfl⟩
        simp [written, String.join]

theorem main_dispatch_witness :
    (main posix ["got"] freshDir).out = printUsage ∧
    (main posix ["got"] freshDir).exitCode = 1 ∧
    (main posix ["got", "status"] freshDir).out =
      (Stream.stderr, "Unknown command: " ++ "status" ++ "\n") :: printUsage ∧
    (main posix ["got", "init"] freshDir).out =
      [(Stream.stdout, "Initialized empty got repository\n")] ∧
    (main posix ["got", "init"] freshDir).exitCode = 0 ∧
    (main posix ["got", "init"] readOnlyDir).out =
      [(Stream.stderr, "Error: failed to create .got directory: mkdir .got: permission denied\n")] ∧
    (main posix ["got", "init"] readOnlyDir).exitCode = 1 :=
  ⟨((main_dispatch posix ["got"] freshDir).1 (by decide)).1,
   ((main_dispatch posix ["got"] freshDir).1 (by decide)).2.2.2.1,
   ((main_dispatch posix ["got", "status"] freshDir).2.1 "status" rfl (by decide)).1,
   (((main_dispatch posix ["got", "init"] freshDir).2.2.1 rfl).2.2.1 (by decide)).1,
   (((main_dispatch posix ["got", "init"] freshDir).2.2.1 rfl).2.2.1 (by decide)).2,
   (((main_dispatch posix ["got", "init"] readOnlyDir).2.2.1 rfl).2.2.2
      (ErrorfW "failed to create .got directory: " (.pathError "mkdir" ".got" .EACCES))
      (by decide)).1,
   (((main_dispatch posix ["got", "init"] readOnlyDir).2.2.1 rfl).2.2.2
      (ErrorfW "failed to create .got directory: " (.pathError "mkdir" ".got" .EACCES))
      (by decide)).2.2⟩

/-- C9. Re-running `Initialize` never completes a partially created repository: when
`.got` does not exist, a call to `Initialize` fails and leaves `.got` behind (it
created the root marker and failed at a later step), then each of any number of
further calls returns "repository already initialized" and leaves the state as it
is, so what was missing stays missing. -/
theorem reinitialize_leaves_partial_repository (s s' : FS) (err : GoError)
    (h0 : s.exists gotDir = false) (h : Initialize posix s = (some err, s'))
    (h1 : s'.exists gotDir = true) (n : Nat) :
    repeatInitialize posix n s' =
      (List.replicate n (some (Errorf "repository already initialized")), s') ∧
    ∀ name, (repeatInitialize posix n s').2.exists name = s'.exists name := by
  obtain ⟨m, es, u, fi, fb, G, hl, hs, rfl⟩ := Initialize_posix_partial_shape s s' err h0 h h1
  have := repeatInitialize_underGot m u fi fb es G hl hs n
  exact ⟨this, fun name => by rw [this]⟩

theorem reinitialize_leaves_partial_repository_witness :
    repeatInitialize posix 3 (Initialize posix threeInodes).2 =
      (List.replicate 3 (some (Errorf "repository already initialized")),
        (Initialize posix threeInodes).2) ∧
    (repeatInitialize posix 3 (Initialize posix threeInodes).2).2.exists ".got/HEAD" = false :=
  ⟨(reinitialize_leaves_partial_repository threeInodes (Initialize posix threeInodes).2
      (ErrorfW "failed to create refs/heads directory: "
        (.pathError "mkdir" ".got/refs/heads" .ENOSPC))
      (by decide) (Prod.ext (by decide) rfl) (by decide) 3).1,
   by
     rw [(reinitialize_leaves_partial_repository threeInodes (Initialize posix threeInodes).2
      (ErrorfW "failed to create refs/heads directory: "
        (.pathError "mkdir" ".got/refs/heads" .ENOSPC))
      (by decide) (Prod.ext (by decide) rfl) (by decide) 3).2 ".got/HEAD"]
     decide⟩

/-- C10. A successful `Initialize` adds the skeleton and nothing else: the working
directory keeps its entries and its mode and gains the one entry `.got`; that entry
is the directory holding exactly `objects`, `refs`, `HEAD` and `index`, with
`objects` and `refs/heads` empty and `refs` holding `heads` only; the four
directories were requested with mode 0755 and the two files with mode 0644 and carry
those modes less the umask; six inodes and the twenty bytes of `HEAD` were used; and
every path that does not start with `.got` names the node it named before. -/
theorem Initialize_adds_skeleton (s s' : FS) (h : Initialize posix s = (none, s')) :
    (∃ m es, s.cwd = .dir m es ∧ es.lookup gotDir = none ∧
      s'.cwd = .dir m (es ++ [(gotDir, skeleton s.umask)])) ∧
    skeleton s.umask =
      .dir (applyUmask 0o755 s.umask)
        [ ("objects", .dir (applyUmask 0o755 s.umask) []),
          ("refs", .dir (applyUmask 0o755 s.umask) [("heads", .dir (applyUmask 0o755 s.umask) [])]),
          ("HEAD", .file (applyUmask 0o644 s.umask) "ref: refs/heads/main"),
          ("index", .file (applyUmask 0o644 s.umask) "") ] ∧
    (Initialize (traced posix) ([], s)).2.1 =
      [ .stat ".got", .mkdir ".got" 0o755, .mkdir ".got/objects" 0o755,
        .mkdirAll ".got/refs/heads" 0o755, .writeFile ".got/HEAD" "ref: refs/heads/main" 0o644,
        .writeFile ".got/index" "" 0o644 ] ∧
    s'.readDir ".got" = some ["objects", "refs", "HEAD", "index"] ∧
    s'.readDir ".got/objects" = some [] ∧
    s'.readDir ".got/refs" = some ["heads"] ∧
    s'.readDir ".got/refs/heads" = some [] ∧
    s'.umask = s.umask ∧
    s'.freeInodes + 6 = s.freeInodes ∧
    s'.freeBytes + 20 = s.freeBytes ∧
    (∀ c rest, c ≠ gotDir → nodeAt s'.cwd (c :: rest) = nodeAt s.cwd (c :: rest)) := by
  obtain ⟨m, es, hcwd, hl, -, -, -, -, hi, hb, hs'⟩ := Initialize_posix_success s s' h
  have hlog := Initialize_ok_log posix s (by rw [h])
  subst hs'
  refine ⟨⟨m, es, hcwd, hl, rfl⟩, rfl, ?_, ?_, ?_, ?_, ?_, rfl, ?_, ?_, ?_⟩
  · rw [hlog]; decide
  · simp only [FS.readDir, sp_got]
    simp only [nodeAt_underGot _ _ _ _ _ _ _ hl]
    simp [nodeAt, skeleton]
  · simp only [FS.readDir, sp_objects]
    simp only [nodeAt_underGot _ _ _ _ _ _ _ hl]
    simp [nodeAt, skeleton, List.lookup]
  · simp only [FS.readDir, sp_refs]
    simp only [nodeAt_underGot _ _ _ _ _ _ _ hl]
    simp [nodeAt, skeleton, List.lookup]
  · simp only [FS.readDir, sp_heads]
    simp only [nodeAt_underGot _ _ _ _ _ _ _ hl]
    simp [nodeAt, skeleton, List.lookup]
  · show s.freeInodes - 6 + 6 = s.freeInodes
    omega
  · show s.freeBytes - 20 + 20 = s.freeBytes
    omega
  · intro c rest hc
    rw [hcwd]
    exact nodeAt_outside m _ _ _ es _ c rest hc

theorem Initialize_adds_skeleton_witness :
    (Initialize posix freshDir).2.readDir ".got" = some ["objects", "refs", "HEAD", "index"] ∧
    (Initialize posix freshDir).2.modeOf ".got/HEAD" = some 0o644 ∧
    (Initialize posix freshDir).2.modeOf ".got/refs/heads" = some 0o755 :=
  ⟨(Initialize_adds_skeleton freshDir _
      (Initialize_result posix freshDir none (by decide))).2.2.2.1, by decide, by decide⟩

end Got
